import Mathlib

/-!
# Launchpad state reconciliation: a verified model

This file gives a shallow embedding, in Lean 4, of the application-state
reconciliation engine of the launchpad shortcut gallery:

* `src/lib/utils.ts` — validators, identity resolver, settings reconciler;
* `src/hooks/useLaunchpadState.ts` — record merger, hidden-app bookkeeping,
  custom-app editing, and the backup import/export protocol.

JavaScript primitives used by that code (`String.prototype.trim`,
`Math.round`, `Number.parseInt` prefix parsing, `Set` insertion order,
`Date.now`) are modelled explicitly below.  Numbers are modelled as exact
rationals (`ℚ`): every numeric value the engine manipulates is the result
of clamping into small ranges, so float rounding plays no role in the
claims considered here; non-finite results of `Number.parseFloat` are
modelled by `Option ℚ` with `none` standing for NaN/±Infinity.

The constants module `lib/constants.ts` and the sorting helper of
`lib/apps.ts` are not part of the provided sources; they are modelled from
the specification and clearly marked as such.
-/

namespace Launchpad

/-! ## JavaScript string and number primitives -/

/-- Whitespace characters recognised by `String.prototype.trim` (the ASCII
ones; the inputs in this development contain no exotic Unicode spaces). -/
def isJsWhitespace (c : Char) : Bool :=
  c = ' ' || c = '\t' || c = '\n' || c = '\r' || c = '\x0b' || c = '\x0c'

/-- `String.prototype.trim` on a character list: drop leading and trailing
whitespace. -/
def trimChars (l : List Char) : List Char :=
  ((l.dropWhile isJsWhitespace).reverse.dropWhile isJsWhitespace).reverse

/-- `String.prototype.trim`. -/
def jsTrim (s : String) : String :=
  ⟨trimChars s.data⟩

/-- `Math.round`: round half toward positive infinity. -/
def jsRound (q : ℚ) : ℤ :=
  ⌊q + 1/2⌋

/-- `Array.from(new Set(l))`: deduplicate keeping the first occurrence of
each element, preserving insertion order. -/
def jsDedup (l : List String) : List String :=
  go [] l
where
  go (seen : List String) : List String → List String
    | [] => []
    | x :: rest =>
      if x ∈ seen then go seen rest else x :: go (x :: seen) rest

/-- `new Set(l)` followed by `.add(x)` and `Array.from`: the deduplicated
list, with `x` appended if not already present. -/
def jsSetAdd (l : List String) (x : String) : List String :=
  let d := jsDedup l
  if x ∈ d then d else d ++ [x]

/-- `new Set(l)` followed by `.delete(x)` and `Array.from`. -/
def jsSetDelete (l : List String) (x : String) : List String :=
  (jsDedup l).filter (fun y => y ≠ x)

/-! ## `clampNumber` and `normalizePageSize` (src/lib/utils.ts, lines 13–35)

`clampNumber` receives an `unknown` and runs it through
`Number.parseFloat(String(value))`.  We model the input by the outcome of
that coercion: `some q` when it yields a finite number `q`, `none` when it
yields NaN or an infinity (in which case the code returns the fallback). -/

/-- `clampNumber(value, min, max, fallback)` from src/lib/utils.ts.  `lo`
and `hi` stand for the `min` and `max` parameters. -/
def clampNumber (value : Option ℚ) (lo hi fallback : ℚ) : ℚ :=
  match value with
  | none => fallback
  | some numeric => min (max numeric lo) hi

/-! ## Hex colors (src/lib/utils.ts, lines 172–216) -/

/-- The numeric value of a hexadecimal digit character, as accepted by
`Number.parseInt(·, 16)`. -/
def hexDigitVal (c : Char) : Option ℕ :=
  if '0' ≤ c && c ≤ '9' then some (c.toNat - 48)
  else if 'a' ≤ c && c ≤ 'f' then some (c.toNat - 87)
  else if 'A' ≤ c && c ≤ 'F' then some (c.toNat - 55)
  else none

/-- Accumulating loop of the prefix parse. -/
def parseHexAux : ℕ → List Char → ℕ
  | acc, [] => acc
  | acc, c :: rest =>
    match hexDigitVal c with
    | some d => parseHexAux (acc * 16 + d) rest
    | none => acc

/-- `Number.parseInt(s, 16)`: parses the longest hexadecimal-digit prefix,
NaN (`none`) when the first character is not a hex digit.  (Leading sign
and `0x` prefix handling is omitted: no input in this development carries
either.) -/
def parseHexPrefix : List Char → Option ℕ
  | [] => none
  | c :: rest =>
    match hexDigitVal c with
    | some d => some (parseHexAux d rest)
    | none => none

/-- An RGB triple as produced by `hexToRgb`. -/
structure RGB where
  r : ℕ
  g : ℕ
  b : ℕ
deriving DecidableEq, Repr

/-- `hexToRgb` from src/lib/utils.ts.  The `unknown` argument is modelled
by `Option String` (`none` for non-string input).  The bit operations
`(value >> 16) & 255` etc. are written with division and remainder. -/
def hexToRgb (hex : Option String) : Option RGB :=
  match hex with
  | none => none
  | some s =>
    let trimmed := trimChars s.data
    if trimmed.isEmpty then none
    else
      let withoutHash := if trimmed.head? = some '#' then trimmed.tail else trimmed
      let normalized :=
        if withoutHash.length = 3 then (withoutHash.map (fun c => [c, c])).flatten
        else withoutHash
      if normalized.length = 6 then
        match parseHexPrefix normalized with
        | none => none
        | some value =>
          some ⟨value / 2 ^ 16 % 2 ^ 8, value / 2 ^ 8 % 2 ^ 8, value % 2 ^ 8⟩
      else none

/-- `component.toString(16).padStart(2, "0")` for the byte-sized components
produced by `hexToRgb` (all call sites pass values below 256). -/
def toHexPad2 (n : ℕ) : List Char :=
  if n < 16 then ['0', Nat.digitChar n]
  else [Nat.digitChar (n / 16), Nat.digitChar (n % 16)]

/-- `rgbToHex` from src/lib/utils.ts (the `null` input case is handled at
the call sites in this model, so the argument is a plain `RGB`). -/
def rgbToHex (rgb : RGB) : String :=
  ⟨'#' :: (toHexPad2 rgb.r ++ toHexPad2 rgb.g ++ toHexPad2 rgb.b)⟩

/-- `resolveHexColor` from src/lib/utils.ts.  In the source `rgbToHex`
returns `null` only on `null` input, so the `?? fallback` branches never
fire; the model makes that explicit. -/
def resolveHexColor (value : Option String) (fallback : String) : String :=
  match hexToRgb value with
  | some rgb => rgbToHex rgb
  | none =>
    match hexToRgb (some fallback) with
    | some fallbackRgb => rgbToHex fallbackRgb
    | none => fallback

/-- A normalized 6-hex-digit color string: `#` followed by six lowercase
hexadecimal digits. -/
def isNormalizedHexColor (s : String) : Bool :=
  match s.data with
  | '#' :: rest =>
    rest.length = 6 && rest.all (fun c => ('0' ≤ c && c ≤ '9') || ('a' ≤ c && c ≤ 'f'))
  | _ => false

/-! ## URL sanitizing (src/lib/utils.ts, lines 37–58)

`sanitizeHttpUrl` relies on the platform `URL` class.  `urlParse` below is
modelled from the spec: it captures the slice of WHATWG URL parsing the
sanitizer depends on — scheme detection, `//host/path` splitting for the
special `http`/`https` schemes with lower-cased scheme and host and a `/`
default path, failure on a missing scheme or empty host, and opaque
acceptance of other schemes (whose results the sanitizer discards). -/

/-- ASCII letter. -/
def isAsciiAlpha (c : Char) : Bool :=
  ('a' ≤ c && c ≤ 'z') || ('A' ≤ c && c ≤ 'Z')

/-- A character allowed inside a URL scheme (after the leading letter):
the class `[a-z0-9+\-.]` of the source's scheme regexp. -/
def isSchemeChar (c : Char) : Bool :=
  isAsciiAlpha c || ('0' ≤ c && c ≤ '9') || c = '+' || c = '-' || c = '.'

/-- Split `scheme:rest`, succeeding exactly when the source's regexp
`/^[a-z][a-z0-9+\-.]*:/i` matches. -/
def splitScheme (l : List Char) : Option (List Char × List Char) :=
  match l with
  | [] => none
  | c :: _ =>
    if isAsciiAlpha c then
      match l.dropWhile isSchemeChar with
      | ':' :: tail => some (l.takeWhile isSchemeChar, tail)
      | _ => none
    else none

/-- Result of `new URL(s)` in the model: a special (`http`/`https`) URL
with authority and path, or an opaque-path URL of any other scheme. -/
inductive UrlParsed where
  | special (scheme host path : String)
  | nonSpecial (scheme rest : String)
deriving DecidableEq, Repr

/-- Modelled from the spec: `new URL(s)` restricted to what the sanitizer
observes.  `none` models a thrown `TypeError`. -/
def urlParse (s : String) : Option UrlParsed :=
  match splitScheme s.data with
  | none => none
  | some (sch, rest) =>
    let scheme : String := ⟨sch.map Char.toLower⟩
    if scheme = "http" || scheme = "https" then
      match rest with
      | '/' :: '/' :: tail =>
        let host := tail.takeWhile (fun c => c ≠ '/')
        let path := tail.dropWhile (fun c => c ≠ '/')
        if host.isEmpty then none
        else
          some (.special scheme ⟨host.map Char.toLower⟩
            (if path.isEmpty then "/" else ⟨path⟩))
      | _ => none
    else some (.nonSpecial scheme ⟨rest⟩)

/-- `url.toString()` for a parsed URL. -/
def urlToString : UrlParsed → String
  | .special scheme host path => scheme ++ "://" ++ host ++ path
  | .nonSpecial scheme rest => scheme ++ ":" ++ rest

/-- The source's `/^javascript:/i` test. -/
def isJavascriptScheme (s : String) : Bool :=
  "javascript:".data.isPrefixOf (s.data.map Char.toLower)

/-- The source's `/^\/\//` test. -/
def startsWithDoubleSlash (s : String) : Bool :=
  match s.data with
  | '/' :: '/' :: _ => true
  | _ => false

/-- The source's `/^[a-z][a-z0-9+\-.]*:/i` test. -/
def hasUrlScheme (s : String) : Bool :=
  (splitScheme s.data).isSome

/-- `sanitizeHttpUrl` from src/lib/utils.ts.  The `unknown` argument is
modelled by `Option String` (`none` for non-string input). -/
def sanitizeHttpUrl (value : Option String) : String :=
  match value with
  | none => ""
  | some v =>
    let trimmed := jsTrim v
    if trimmed = "" then ""
    else if isJavascriptScheme trimmed then ""
    else
      let prefixed :=
        if startsWithDoubleSlash trimmed then "https:" ++ trimmed
        else if !hasUrlScheme trimmed then "https://" ++ trimmed
        else trimmed
      match urlParse prefixed with
      | none => ""
      | some (.special scheme host path) => urlToString (.special scheme host path)
      | some (.nonSpecial _ _) => ""

/-! ## Data model (src/lib/types.ts via its uses in src/lib/utils.ts) -/

/-- A launchpad app record.  `origin` is `"catalog"` or `"custom"`; raw
records fetched from the catalog may lack it (the merge supplies
`"catalog"`), hence the `Option`.  The synthetic `hidden-group` marker
(`type` field) plays no role in the merging logic modelled here. -/
structure LaunchpadApp where
  id : String
  name : String
  description : String
  url : String
  icon : String
  tags : List String
  origin : Option String
deriving DecidableEq, Repr

/-- `backgroundType` of the settings object. -/
inductive BackgroundType where
  | image
  | color
deriving DecidableEq, Repr

/-- `mobileLayout` of the settings object. -/
inductive MobileLayout where
  | grid
  | list
deriving DecidableEq, Repr

/-- The settings object (`LaunchpadSettings` of src/lib/types.ts, fields
as read and written by src/lib/utils.ts). -/
structure LaunchpadSettings where
  backgroundType : BackgroundType
  backgroundColor : String
  backgroundImage : String
  overlayOpacity : ℚ
  blurStrength : ℚ
  glassTintColor : String
  glassTintOpacity : ℚ
  hideDefaultApps : Bool
  mobileLayout : MobileLayout
  hasCompletedSetup : Bool
deriving DecidableEq, Repr

/-- A possibly malformed partial settings update, as received by
`updateSettingsFromForm`: each field may be absent (`none`); the
enumeration-like fields arrive as arbitrary strings (the code compares
them against exact literals), `hideDefaultApps` as the truthiness of the
supplied value. -/
structure SettingsPartial where
  backgroundType : Option String
  backgroundColor : Option String
  backgroundImage : Option String
  overlayOpacity : Option ℚ
  blurStrength : Option ℚ
  glassTintColor : Option String
  glassTintOpacity : Option ℚ
  hideDefaultApps : Option Bool
  mobileLayout : Option String
  hasCompletedSetup : Option Bool
deriving DecidableEq, Repr

/-- The user-data object (`LaunchpadUserData` of src/lib/types.ts). -/
structure LaunchpadUserData where
  hiddenAppIds : List String
  customApps : List LaunchpadApp
  pageSize : ℤ
deriving DecidableEq, Repr

/-- Modelled from the spec: the constants module `lib/constants.ts`
(`MIN_PAGE_SIZE`, `MAX_PAGE_SIZE`, `PAGE_SIZE_STEP`, `DEFAULT_PAGE_SIZE`,
`DEFAULT_ICON`, `defaultSettings`, `defaultUserData`) is not among the
provided sources, so its values are carried as parameters. -/
structure LaunchpadConstants where
  minPageSize : ℤ
  maxPageSize : ℤ
  pageSizeStep : ℤ
  defaultPageSize : ℤ
  defaultIcon : String
  defaultSettings : LaunchpadSettings
  defaultUserData : LaunchpadUserData
deriving DecidableEq, Repr

/-! ## Page size (src/lib/utils.ts, lines 26–35) -/

/-- `normalizePageSize` from src/lib/utils.ts.  In the model the clamped
value is always a finite rational, so the source's `Number.isFinite`
re-check before rounding always passes. -/
def normalizePageSize (C : LaunchpadConstants) (value : Option ℚ) : ℤ :=
  let fallback : ℤ := C.defaultUserData.pageSize
  let clamped : ℚ :=
    clampNumber value (C.minPageSize : ℚ) (C.maxPageSize : ℚ) (fallback : ℚ)
  let rounded : ℤ := jsRound clamped
  if C.pageSizeStep ≤ 1 then
    min (max rounded C.minPageSize) C.maxPageSize
  else
    let stepped : ℤ := jsRound ((rounded : ℚ) / (C.pageSizeStep : ℚ)) * C.pageSizeStep
    min (max stepped C.minPageSize) C.maxPageSize

/-! ## Icon, tag and background-image validators (src/lib/utils.ts) -/

/-- `sanitizeIconSource` from src/lib/utils.ts. -/
def sanitizeIconSource (C : LaunchpadConstants) (value : Option String) : String :=
  match value with
  | none => C.defaultIcon
  | some v =>
    let trimmed := jsTrim v
    if trimmed = "" then C.defaultIcon
    else if isJavascriptScheme trimmed then C.defaultIcon
    else if "http://".data.isPrefixOf (trimmed.data.map Char.toLower)
        || "https://".data.isPrefixOf (trimmed.data.map Char.toLower)
        || "data:image/".data.isPrefixOf (trimmed.data.map Char.toLower)
        || "./".data.isPrefixOf trimmed.data
        || "/".data.isPrefixOf trimmed.data then
      trimmed
    else C.defaultIcon

/-- `sanitizeTagList` from src/lib/utils.ts.  A non-array argument is
`none`; array elements are carried after the `String(tag ?? "")`
coercion, which always yields a string. -/
def sanitizeTagList (tags : Option (List String)) : List String :=
  match tags with
  | none => []
  | some l => (l.map jsTrim).filter (fun tag => !tag.isEmpty)

/-- `parseCustomTagString` from src/lib/utils.ts. -/
def parseCustomTagString (value : Option String) : List String :=
  match value with
  | none => []
  | some s => ((s.split (fun c => c = ',')).map jsTrim).filter (fun tag => !tag.isEmpty)

/-- `sanitizeBackgroundImage` from src/lib/utils.ts.  Note the
`/javascript:/i` test is a substring test, not an anchored one. -/
def sanitizeBackgroundImage (value : Option String) : String :=
  match value with
  | none => ""
  | some v =>
    let trimmed := jsTrim v
    if trimmed = "" then ""
    else if decide ("javascript:".data <:+: trimmed.data.map Char.toLower) then ""
    else trimmed

/-! ## Slug ids and unique ids (src/lib/utils.ts, lines 91–151) -/

/-- Little-endian base-`b` digits, with explicit fuel so the definition
is structurally recursive (the fuel is immaterial once it dominates `n`).
-/
def digitsAux (b : ℕ) : ℕ → ℕ → List ℕ
  | 0, _ => []
  | fuel + 1, n => if n = 0 then [] else n % b :: digitsAux b fuel (n / b)

/-- Decimal rendering of a natural number (`String(n)` /
`${n}` in the source). -/
def natToString (n : ℕ) : String :=
  if n = 0 then "0" else ⟨((digitsAux 10 n n).reverse.map Nat.digitChar)⟩

/-- Base-36 digit characters, as produced by `Number.toString(36)`. -/
def base36Char (d : ℕ) : Char :=
  if d < 10 then Nat.digitChar d else Char.ofNat (87 + d)

/-- `n.toString(36)` for a natural number. -/
def natToBase36 (n : ℕ) : String :=
  if n = 0 then "0" else ⟨((digitsAux 36 n n).reverse.map base36Char)⟩

/-- A character kept verbatim by the slug regexp `[^a-z0-9]+` (after
lower-casing). -/
def isSlugChar (c : Char) : Bool :=
  ('a' ≤ c && c ≤ 'z') || ('0' ≤ c && c ≤ '9')

/-- `replace(/[^a-z0-9]+/g, "-")`, written as a one-state scanner so the
recursion is structural: `inRun` records whether the previous character
belonged to a non-slug run (already replaced by a dash). -/
def slugReplaceAux : Bool → List Char → List Char
  | _, [] => []
  | inRun, c :: rest =>
    if isSlugChar c then c :: slugReplaceAux false rest
    else if inRun then slugReplaceAux true rest
    else '-' :: slugReplaceAux true rest

/-- `replace(/[^a-z0-9]+/g, "-")`: each maximal run of non-slug
characters becomes a single dash. -/
def slugReplace (l : List Char) : List Char :=
  slugReplaceAux false l

/-- `replace(/^-+|-+$/g, "")`: strip leading and trailing dashes. -/
def stripDashes (l : List Char) : List Char :=
  ((l.dropWhile (fun c => c = '-')).reverse.dropWhile (fun c => c = '-')).reverse

/-- The slug derived from a name: lower-case, collapse non-alphanumeric
runs to dashes, strip outer dashes. -/
def slugOfName (name : String) : List Char :=
  stripDashes (slugReplace (name.data.map Char.toLower))

/-- `createSlugId` from src/lib/utils.ts.  `now` models `Date.now()`,
whose base-36 rendering is used when the name yields no slug characters. -/
def createSlugId (pre name : String) (now : ℕ) : String :=
  let baseName : String := ⟨slugOfName name⟩
  if baseName = "" then pre ++ "-" ++ natToBase36 now
  else pre ++ "-" ++ baseName

/-- The candidate ids tried by the collision loop of
`ensureUniqueAppIds`: the base id itself, then `base-2`, `base-3`, … -/
def candId (base : String) (k : ℕ) : String :=
  if k = 0 then base else base ++ "-" ++ natToString (k + 1)

/-- The id chosen by the `while (seen.has(uniqueId))` loop: the first
candidate not in `seen`.  At most `seen.length + 1` candidates need
inspecting (they are pairwise distinct), which bounds the search. -/
def freshId (base : String) (seen : List String) : String :=
  match (List.range (seen.length + 1)).find? (fun k => !seen.contains (candId base k)) with
  | some k => candId base k
  | none => candId base (seen.length + 1)

/-- The loop body of `ensureUniqueAppIds`, with the `seen` set made
explicit. -/
def ensureUniqueAux (now : ℕ) : List String → List LaunchpadApp → List LaunchpadApp
  | _, [] => []
  | seen, app :: rest =>
    let baseId :=
      if jsTrim app.id ≠ "" then jsTrim app.id
      else createSlugId (if app.origin = some "custom" then "custom" else "app") app.name now
    let uniqueId := freshId baseId seen
    { app with id := uniqueId } :: ensureUniqueAux now (uniqueId :: seen) rest

/-- `ensureUniqueAppIds` from src/lib/utils.ts.  `now` models `Date.now()`
for the slug fallback. -/
def ensureUniqueAppIds (now : ℕ) (apps : List LaunchpadApp) : List LaunchpadApp :=
  ensureUniqueAux now [] apps

/-! ## App record sanitizing and hidden-id bookkeeping (src/lib/utils.ts) -/

/-- A raw app-like object, as handed to `sanitizeAppRecord`: every field
may be missing or of the wrong type (`none`); tag-list elements are
carried after the `String(tag ?? "")` coercion. -/
structure RawApp where
  id : Option String
  name : Option String
  description : Option String
  url : Option String
  icon : Option String
  tags : Option (List String)
deriving DecidableEq, Repr

/-- `sanitizeAppRecord` from src/lib/utils.ts.  `none` for the first
argument models a non-object value. -/
def sanitizeAppRecord (C : LaunchpadConstants) (app : Option RawApp)
    (origin : String) : Option LaunchpadApp :=
  match app with
  | none => none
  | some raw =>
    let name := match raw.name with | some s => jsTrim s | none => ""
    let description := match raw.description with | some s => jsTrim s | none => ""
    let url := sanitizeHttpUrl raw.url
    let icon := sanitizeIconSource C raw.icon
    let tags := sanitizeTagList raw.tags
    let id := match raw.id with | some s => jsTrim s | none => ""
    if origin = "custom" && (name.isEmpty || url.isEmpty) then none
    else
      some { id := id
             name := if name.isEmpty then "Untitled app" else name
             description := description
             url := url
             icon := icon
             tags := tags
             origin := some origin }

/-- The raw object corresponding to a typed app record (how a stored
custom app re-enters `sanitizeAppRecord` on backup import). -/
def LaunchpadApp.toRaw (app : LaunchpadApp) : RawApp :=
  { id := some app.id
    name := some app.name
    description := some app.description
    url := some app.url
    icon := some app.icon
    tags := some app.tags }

/-- `dedupeHiddenIds` from src/lib/utils.ts.  A non-array first argument
is `none`; array elements are `none` when not strings (the code maps
those to `""`, which the length filter then drops). -/
def dedupeHiddenIds (hiddenIds : Option (List (Option String)))
    (apps : List LaunchpadApp) : List String :=
  match hiddenIds with
  | none => []
  | some l =>
    let validIds := apps.map (fun app => app.id)
    (l.map (fun id => match id with | some s => jsTrim s | none => ""))
      |>.filter (fun id => !id.isEmpty && validIds.contains id)

/-! ## Settings reconciliation (src/lib/utils.ts, lines 252–315) -/

/-- `updateSettingsFromForm` from src/lib/utils.ts.  The object-spread
`{ ...base, ...partial, ... }` leaves exactly `hasCompletedSetup` to the
spread (every other field is written explicitly); the `?? base`/`??
defaultSettings` tails on `hideDefaultApps` and `mobileLayout` cannot
fire past `base`, whose fields are never nullish. -/
def updateSettingsFromForm (C : LaunchpadConstants) (base : LaunchpadSettings)
    (upd : SettingsPartial) : LaunchpadSettings :=
  { backgroundType :=
      if upd.backgroundType = some "color" then .color else .image
    backgroundColor :=
      resolveHexColor upd.backgroundColor C.defaultSettings.backgroundColor
    backgroundImage := sanitizeBackgroundImage upd.backgroundImage
    overlayOpacity :=
      clampNumber upd.overlayOpacity 0 (3/5) C.defaultSettings.overlayOpacity
    blurStrength :=
      clampNumber upd.blurStrength 0 20 C.defaultSettings.blurStrength
    glassTintColor :=
      resolveHexColor upd.glassTintColor C.defaultSettings.glassTintColor
    glassTintOpacity :=
      clampNumber upd.glassTintOpacity (1/20) (19/20) C.defaultSettings.glassTintOpacity
    hideDefaultApps := upd.hideDefaultApps.getD base.hideDefaultApps
    mobileLayout :=
      if upd.mobileLayout = some "list" then .list
      else if upd.mobileLayout = some "grid" then .grid
      else base.mobileLayout
    hasCompletedSetup := upd.hasCompletedSetup.getD base.hasCompletedSetup }

/-- A partial user-data update, as consumed by `mergeUserData`. -/
structure UserDataPartial where
  hiddenAppIds : Option (List String)
  customApps : Option (List LaunchpadApp)
  pageSize : Option (Option ℚ)
deriving DecidableEq, Repr

/-- `mergeUserData` from src/lib/utils.ts.  `none` models both an absent
field and a non-array value (the `Array.isArray` checks).  For `pageSize`
the `upd.pageSize ?? base.pageSize ?? defaultUserData.pageSize` chain
stops at `base.pageSize`, which is never nullish in the model. -/
def mergeUserData (C : LaunchpadConstants) (base : LaunchpadUserData)
    (upd : UserDataPartial) : LaunchpadUserData :=
  { hiddenAppIds := upd.hiddenAppIds.getD base.hiddenAppIds
    customApps := upd.customApps.getD base.customApps
    pageSize :=
      normalizePageSize C (upd.pageSize.getD (some (base.pageSize : ℚ))) }

/-! ## The record merger (src/hooks/useLaunchpadState.ts, lines 212–222) -/

/-- Modelled from the spec: `sortAppsByName` of `lib/apps.ts` is not
among the provided sources.  Per §4.3 of the spec it sorts by name,
case-insensitively, with ties broken by original order (stable sort);
modelled as a stable insertion sort on the lower-cased name. -/
def lowerName (app : LaunchpadApp) : List Char :=
  app.name.data.map Char.toLower

/-- Stable insertion of an app into a name-sorted list: an app is placed
before the first strictly greater name, so equal names keep their
original relative order. -/
def insertByName (app : LaunchpadApp) : List LaunchpadApp → List LaunchpadApp
  | [] => [app]
  | b :: rest =>
    if decide (lowerName b ≤ lowerName app) then b :: insertByName app rest
    else app :: b :: rest

/-- Modelled from the spec: locale-aware case-insensitive stable sort by
name (`sortAppsByName` of `lib/apps.ts`). -/
def sortAppsByName : List LaunchpadApp → List LaunchpadApp
  | [] => []
  | app :: rest => insertByName app (sortAppsByName rest)

/-- The `catalogApps` memo of src/hooks/useLaunchpadState.ts: the merged
collection.  `now` models `Date.now()` inside the slug fallback of
`ensureUniqueAppIds`. -/
def mergeCollection (now : ℕ) (baseCatalog customApps : List LaunchpadApp)
    (hideDefaultApps : Bool) : List LaunchpadApp :=
  let cataloguePart := if hideDefaultApps then [] else baseCatalog
  let allApps := cataloguePart ++ customApps
  let normalized := ensureUniqueAppIds now
    (allApps.map (fun app => { app with origin := some (app.origin.getD "catalog") }))
  sortAppsByName normalized

/-! ## Hook-level state and actions (src/hooks/useLaunchpadState.ts)

The pieces of the hook's state that the reconciliation engine reads and
writes: settings, user data, and the fetched base catalog.  Pagination,
search and modal state do not feed back into these and are omitted. -/

/-- The persistent slice of the hook's state. -/
structure LaunchpadState where
  settings : LaunchpadSettings
  userData : LaunchpadUserData
  baseCatalog : List LaunchpadApp
deriving DecidableEq, Repr

/-- The `catalogApps` memo: the merged collection derived from the
current state.  `now` models `Date.now()` during the recomputation. -/
def catalogAppsOf (s : LaunchpadState) (now : ℕ) : List LaunchpadApp :=
  mergeCollection now s.baseCatalog s.userData.customApps s.settings.hideDefaultApps

/-- Result of a user-facing action (`{ success, message }`). -/
structure ActionResult where
  success : Bool
  message : String
deriving DecidableEq, Repr

/-- `hideApp` from src/hooks/useLaunchpadState.ts. -/
def hideApp (s : LaunchpadState) (appId : String) (now : ℕ) : LaunchpadState :=
  if appId = "" then s
  else
    let hiddenSet := jsSetAdd s.userData.hiddenAppIds appId
    let deduped := dedupeHiddenIds (some (hiddenSet.map some)) (catalogAppsOf s now)
    { s with userData := { s.userData with hiddenAppIds := deduped } }

/-- `showApp` from src/hooks/useLaunchpadState.ts. -/
def showApp (s : LaunchpadState) (appId : String) (now : ℕ) : LaunchpadState :=
  if appId = "" then s
  else
    let hiddenSet := jsSetDelete s.userData.hiddenAppIds appId
    let deduped := dedupeHiddenIds (some (hiddenSet.map some)) (catalogAppsOf s now)
    { s with userData := { s.userData with hiddenAppIds := deduped } }

/-- `removeCustomApp` from src/hooks/useLaunchpadState.ts. -/
def removeCustomApp (s : LaunchpadState) (appId : String) : LaunchpadState :=
  { s with
    userData :=
      { s.userData with
        customApps := s.userData.customApps.filter (fun app => app.id ≠ appId)
        hiddenAppIds := s.userData.hiddenAppIds.filter (fun id => id ≠ appId) } }

/-! ## `submitCustomApp` (src/hooks/useLaunchpadState.ts, lines 503–607) -/

/-- The `CustomAppInput` form value. -/
structure CustomAppInput where
  id : Option String
  name : String
  url : String
  description : Option String
  tagsInput : Option String
  iconChoice : Option String
  iconCustom : Option String
deriving DecidableEq, Repr

/-- The validation prefix of `submitCustomApp`: name, link and icon
checks, then `sanitizeAppRecord`; produces the base app or the failure
message. -/
def submitBase (C : LaunchpadConstants) (input : CustomAppInput) :
    Except String LaunchpadApp :=
  let trimmedName := jsTrim input.name
  if trimmedName = "" then .error "Please enter a name."
  else
    let sanitizedUrl := sanitizeHttpUrl (some input.url)
    if sanitizedUrl = "" then .error "Please enter a valid link."
    else
      let iconStep : Except String String :=
        if input.iconChoice = some "custom" then
          let customValue := input.iconCustom.getD ""
          if jsTrim customValue = "" then .error "Paste an icon URL or pick a preset."
          else .ok (sanitizeIconSource C (some customValue))
        else
          match input.iconChoice with
          | some choice => .ok (sanitizeIconSource C (some choice))
          | none => .ok C.defaultIcon
      match iconStep with
      | .error m => .error m
      | .ok icon =>
        let raw : RawApp :=
          { id := input.id
            name := some trimmedName
            description := some ((input.description.map jsTrim).getD "")
            url := some sanitizedUrl
            icon := some icon
            tags := some (match input.tagsInput with
              | some t => if t = "" then [] else parseCustomTagString (some t)
              | none => []) }
        match sanitizeAppRecord C (some raw) "custom" with
        | none => .error "Unable to create the app. Please check the fields again."
        | some baseApp => .ok baseApp

/-- `input.id?.trim() || baseApp.id`. -/
def submitPreviousId (input : CustomAppInput) (baseApp : LaunchpadApp) : String :=
  match input.id with
  | some rawId => if jsTrim rawId = "" then baseApp.id else jsTrim rawId
  | none => baseApp.id

/-- The id assigned to the saved app: the previous id when editing, else
a fresh slug avoiding the ids reserved by the current collection. -/
def submitTargetId (s : LaunchpadState) (input : CustomAppInput)
    (baseApp : LaunchpadApp) (now : ℕ) : String :=
  let previousId := submitPreviousId input baseApp
  let reservedIds :=
    let ids := jsDedup ((catalogAppsOf s now).map (fun app => app.id))
    if previousId = "" then ids else ids.filter (fun id => id ≠ previousId)
  if previousId = "" then freshId (createSlugId "custom" baseApp.name now) reservedIds
  else jsTrim previousId

/-- `submitCustomApp` from src/hooks/useLaunchpadState.ts.  `now` models
`Date.now()` for the slug fallback inside the merge and for the fresh
slug id. -/
def submitCustomApp (C : LaunchpadConstants) (s : LaunchpadState)
    (input : CustomAppInput) (now : ℕ) : ActionResult × LaunchpadState :=
  match submitBase C input with
  | .error m => (⟨false, m⟩, s)
  | .ok baseApp =>
    let previousId := submitPreviousId input baseApp
    let targetId := submitTargetId s input baseApp now
    let prepared : LaunchpadApp := { baseApp with id := targetId, origin := some "custom" }
    let withoutPrevious := s.userData.customApps.filter
      (fun app => app.id ≠ previousId && app.id ≠ prepared.id)
    let updatedCustomApps := withoutPrevious ++ [prepared]
    let nextHiddenIds := s.userData.hiddenAppIds.filter
      (fun hiddenId => hiddenId ≠ previousId && hiddenId ≠ prepared.id)
    (⟨true, if input.id.getD "" ≠ "" then "App updated successfully." else "App saved successfully."⟩,
      { s with userData :=
        { hiddenAppIds := nextHiddenIds
          customApps := updatedCustomApps
          pageSize := s.userData.pageSize } })

/-! ## Backup codec (src/hooks/useLaunchpadState.ts, lines 641–778) -/

/-- A top-level key of a parsed backup payload: absent or otherwise falsy
(`none`/`null`/`false`/`0`/`""`), truthy but not an object, or an object
carrying typed content. -/
inductive BackupField (α : Type) where
  | falsyVal
  | truthyNonObject
  | objVal (a : α)
deriving DecidableEq, Repr

/-- Truthiness of a backup field (`!rawSettings` etc.; note `null` is
falsy even though `typeof null` is `"object"`). -/
def BackupField.truthy {α : Type} : BackupField α → Bool
  | .falsyVal => false
  | .truthyNonObject => true
  | .objVal _ => true

/-- Whether the branch guard `raw && typeof raw === "object"` passes. -/
def BackupField.isObj {α : Type} : BackupField α → Bool
  | .objVal _ => true
  | _ => false

/-- The `userData` object of a backup payload, before sanitizing.
`customApps`/`hiddenAppIds` are `none` unless arrays (the `Array.isArray`
checks); `pageSize`'s outer `Option` is the `!== undefined` presence test
(with a nullish value folded into `none`: it would fall through the `??`
chain to the same default), the inner one the finite-parse outcome. -/
structure ImportUserDataRaw where
  customApps : Option (List (Option RawApp))
  hiddenAppIds : Option (List (Option String))
  pageSize : Option (Option ℚ)
deriving DecidableEq, Repr

/-- A parsed backup value: either not an object (including `null` and
other falsy values), or an object whose `settings`/`userData` keys are
described by `BackupField`. -/
inductive ImportValue where
  | notObject
  | payload (settings : BackupField SettingsPartial)
      (userData : BackupField ImportUserDataRaw)
deriving DecidableEq, Repr

/-- String form of a `BackgroundType` (how a stored settings object
serializes the field). -/
def BackgroundType.toStr : BackgroundType → String
  | .image => "image"
  | .color => "color"

/-- String form of a `MobileLayout`. -/
def MobileLayout.toStr : MobileLayout → String
  | .grid => "grid"
  | .list => "list"

/-- The object spread `{ ...defaultSettings, ...incomingSettings }`: keys
absent from the incoming object are filled from the defaults (whose
values are well-typed, hence the coercions to the raw field types). -/
def spreadSettings (d : LaunchpadSettings) (incoming : SettingsPartial) :
    SettingsPartial :=
  { backgroundType := some (incoming.backgroundType.getD d.backgroundType.toStr)
    backgroundColor := some (incoming.backgroundColor.getD d.backgroundColor)
    backgroundImage := some (incoming.backgroundImage.getD d.backgroundImage)
    overlayOpacity := some (incoming.overlayOpacity.getD d.overlayOpacity)
    blurStrength := some (incoming.blurStrength.getD d.blurStrength)
    glassTintColor := some (incoming.glassTintColor.getD d.glassTintColor)
    glassTintOpacity := some (incoming.glassTintOpacity.getD d.glassTintOpacity)
    hideDefaultApps := some (incoming.hideDefaultApps.getD d.hideDefaultApps)
    mobileLayout := some (incoming.mobileLayout.getD d.mobileLayout.toStr)
    hasCompletedSetup := some (incoming.hasCompletedSetup.getD d.hasCompletedSetup) }

/-- `importBackup` from src/hooks/useLaunchpadState.ts.  Returns the
action result together with the updated state. -/
def importBackup (C : LaunchpadConstants) (s : LaunchpadState)
    (data : ImportValue) : ActionResult × LaunchpadState :=
  match data with
  | .notObject => (⟨false, "The backup file is invalid."⟩, s)
  | .payload rawSettings rawUserData =>
    if !rawSettings.truthy && !rawUserData.truthy then
      (⟨false, "The backup file is missing required data."⟩, s)
    else
      let settingsStep : Bool × LaunchpadSettings :=
        match rawSettings with
        | .objVal incomingSettings =>
          let sanitized :=
            updateSettingsFromForm C C.defaultSettings
              (spreadSettings C.defaultSettings incomingSettings)
          let sanitized :=
            { sanitized with
              hasCompletedSetup :=
                match incomingSettings.hasCompletedSetup with
                | some b => b
                | none => s.settings.hasCompletedSetup }
          (true, sanitized)
        | _ => (false, s.settings)
      let userDataStep : Bool × LaunchpadUserData :=
        match rawUserData with
        | .objVal incomingUserData =>
          let sanitizedCustomApps : Option (List LaunchpadApp) :=
            incomingUserData.customApps.map
              (fun entries => entries.filterMap
                (fun entry => sanitizeAppRecord C entry "custom"))
          let sanitizedHiddenIds : Option (List String) :=
            incomingUserData.hiddenAppIds.map
              (fun ids => jsDedup
                ((ids.map (fun id => match id with | some str => jsTrim str | none => ""))
                  |>.filter (fun id => !id.isEmpty)))
          let merged := mergeUserData C C.defaultUserData
            { hiddenAppIds := sanitizedHiddenIds
              customApps := sanitizedCustomApps
              pageSize := incomingUserData.pageSize }
          (true, merged)
        | _ => (false, s.userData)
      let settingsUpdated := settingsStep.1
      let userDataUpdated := userDataStep.1
      if !settingsUpdated && !userDataUpdated then
        (⟨false, "No changes were applied from the backup file."⟩, s)
      else
        (⟨true,
          if settingsUpdated && userDataUpdated then
            "Imported settings and app data successfully."
          else if settingsUpdated then "Imported settings successfully."
          else "Imported app data successfully."⟩,
          { s with settings := settingsStep.2, userData := userDataStep.2 })

/-- The serialized form of a settings object, as it appears under the
`settings` key of an exported backup: every field present. -/
def settingsToPartial (s : LaunchpadSettings) : SettingsPartial :=
  { backgroundType := some s.backgroundType.toStr
    backgroundColor := some s.backgroundColor
    backgroundImage := some s.backgroundImage
    overlayOpacity := some s.overlayOpacity
    blurStrength := some s.blurStrength
    glassTintColor := some s.glassTintColor
    glassTintOpacity := some s.glassTintOpacity
    hideDefaultApps := some s.hideDefaultApps
    mobileLayout := some s.mobileLayout.toStr
    hasCompletedSetup := some s.hasCompletedSetup }

/-- The serialized form of a user-data object, as it appears under the
`userData` key of an exported backup. -/
def userDataToRaw (u : LaunchpadUserData) : ImportUserDataRaw :=
  { customApps := some (u.customApps.map (fun app => some app.toRaw))
    hiddenAppIds := some (u.hiddenAppIds.map some)
    pageSize := some (some (u.pageSize : ℚ)) }

/-- `exportBackup`'s payload (src/hooks/useLaunchpadState.ts, lines
649–655), as seen by a subsequent `importBackup`: the schema version,
app version and timestamp wrap the current settings and user data (these
wrapper fields are ignored on import). -/
def exportPayload (s : LaunchpadState) : ImportValue :=
  .payload (.objVal (settingsToPartial s.settings))
    (.objVal (userDataToRaw s.userData))

/-! ## Settings submission and the session state machine -/

/-- The `SettingsFormInput` form value of `submitSettings`.  The
string-typed fields are kept general: `updateSettingsFromForm`
re-validates them against exact literals. -/
structure SettingsFormInput where
  backgroundType : String
  backgroundImageChoice : String
  backgroundImageCustom : Option String
  backgroundColor : String
  overlayOpacity : Option ℚ
  blurStrength : Option ℚ
  glassTintColor : String
  glassTintOpacity : Option ℚ
  pageSize : Option ℚ
  hideDefaultApps : Bool
  mobileLayout : String
deriving DecidableEq, Repr

/-- `submitSettings` from src/hooks/useLaunchpadState.ts (its effect on
settings and user data). -/
def submitSettingsAction (C : LaunchpadConstants) (s : LaunchpadState)
    (input : SettingsFormInput) : LaunchpadState :=
  let backgroundImage :=
    if input.backgroundImageChoice = "custom" then input.backgroundImageCustom.getD ""
    else input.backgroundImageChoice
  let nextSettings := updateSettingsFromForm C s.settings
    { backgroundType := some input.backgroundType
      backgroundColor := some input.backgroundColor
      backgroundImage := some backgroundImage
      overlayOpacity := input.overlayOpacity
      blurStrength := input.blurStrength
      glassTintColor := some input.glassTintColor
      glassTintOpacity := input.glassTintOpacity
      hideDefaultApps := some input.hideDefaultApps
      mobileLayout := some input.mobileLayout
      hasCompletedSetup := some true }
  -- closeSettings({ markCompleted: true }) then sets hasCompletedSetup,
  -- which updateSettingsFromForm already carried over
  { s with
    settings := nextSettings
    userData := { s.userData with pageSize := normalizePageSize C input.pageSize } }

/-- `setDesktopPageSize` from src/hooks/useLaunchpadState.ts. -/
def setDesktopPageSizeAction (C : LaunchpadConstants) (s : LaunchpadState)
    (size : Option ℚ) : LaunchpadState :=
  { s with userData := { s.userData with pageSize := normalizePageSize C size } }

/-- A user- or network-triggered transition of the persistent state.
`now` parameters model `Date.now()` at the moment the action runs. -/
inductive LaunchpadAction where
  | catalogLoaded (apps : List LaunchpadApp)
  | hide (appId : String) (now : ℕ)
  | show (appId : String) (now : ℕ)
  | removeCustom (appId : String)
  | submitCustom (input : CustomAppInput) (now : ℕ)
  | submitSettingsForm (input : SettingsFormInput)
  | setPageSize (size : Option ℚ)
  | importData (data : ImportValue)

/-- One step of the session state machine. -/
def stepAction (C : LaunchpadConstants) (s : LaunchpadState) :
    LaunchpadAction → LaunchpadState
  | .catalogLoaded apps => { s with baseCatalog := apps }
  | .hide appId now => hideApp s appId now
  | .show appId now => showApp s appId now
  | .removeCustom appId => removeCustomApp s appId
  | .submitCustom input now => (submitCustomApp C s input now).2
  | .submitSettingsForm input => submitSettingsAction C s input
  | .setPageSize size => setDesktopPageSizeAction C s size
  | .importData data => (importBackup C s data).2

/-- The initial state of a session: the defaults (first-run, empty
storage), no catalog fetched yet. -/
def initState (C : LaunchpadConstants) : LaunchpadState :=
  { settings := C.defaultSettings
    userData := C.defaultUserData
    baseCatalog := [] }

/-- States reachable in a session. -/
inductive Reachable (C : LaunchpadConstants) : LaunchpadState → Prop where
  | init : Reachable C (initState C)
  | step {s : LaunchpadState} (a : LaunchpadAction) :
      Reachable C s → Reachable C (stepAction C s a)

/-! ## Validity predicates -/

/-- The constraints the spec places on the constants module: a positive
step dividing the page-size bounds and the default, defaults inside the
clamping ranges, normalized default colors, a default icon and background
image that are fixed points of their sanitizers, and empty default
collections. -/
def ValidConstants (C : LaunchpadConstants) : Prop :=
  1 ≤ C.pageSizeStep ∧
  C.minPageSize ≤ C.maxPageSize ∧
  C.pageSizeStep ∣ C.minPageSize ∧
  C.pageSizeStep ∣ C.maxPageSize ∧
  C.minPageSize ≤ C.defaultPageSize ∧
  C.defaultPageSize ≤ C.maxPageSize ∧
  C.pageSizeStep ∣ C.defaultPageSize ∧
  C.defaultUserData = { hiddenAppIds := [], customApps := [], pageSize := C.defaultPageSize } ∧
  isNormalizedHexColor C.defaultSettings.backgroundColor = true ∧
  isNormalizedHexColor C.defaultSettings.glassTintColor = true ∧
  (0 : ℚ) ≤ C.defaultSettings.overlayOpacity ∧ C.defaultSettings.overlayOpacity ≤ 3/5 ∧
  (0 : ℚ) ≤ C.defaultSettings.blurStrength ∧ C.defaultSettings.blurStrength ≤ 20 ∧
  (1/20 : ℚ) ≤ C.defaultSettings.glassTintOpacity ∧ C.defaultSettings.glassTintOpacity ≤ 19/20 ∧
  sanitizeBackgroundImage (some C.defaultSettings.backgroundImage) = C.defaultSettings.backgroundImage ∧
  sanitizeIconSource C (some C.defaultIcon) = C.defaultIcon

instance (C : LaunchpadConstants) : Decidable (ValidConstants C) := by
  unfold ValidConstants; infer_instance

/-- A settings object satisfying the invariants the reconciler
establishes (§3 of the spec): clamped numeric fields, normalized colors,
a sanitizer-fixed background image. -/
def ValidSettings (s : LaunchpadSettings) : Prop :=
  isNormalizedHexColor s.backgroundColor = true ∧
  isNormalizedHexColor s.glassTintColor = true ∧
  (0 : ℚ) ≤ s.overlayOpacity ∧ s.overlayOpacity ≤ 3/5 ∧
  (0 : ℚ) ≤ s.blurStrength ∧ s.blurStrength ≤ 20 ∧
  (1/20 : ℚ) ≤ s.glassTintOpacity ∧ s.glassTintOpacity ≤ 19/20 ∧
  sanitizeBackgroundImage (some s.backgroundImage) = s.backgroundImage

instance (s : LaunchpadSettings) : Decidable (ValidSettings s) := by
  unfold ValidSettings; infer_instance

/-- A stored custom app record satisfying the sanitizer's invariants:
re-sanitizing it (as the import path does) reproduces it exactly. -/
def ValidCustomApp (C : LaunchpadConstants) (app : LaunchpadApp) : Prop :=
  sanitizeAppRecord C (some app.toRaw) "custom" = some app

instance (C : LaunchpadConstants) (app : LaunchpadApp) :
    Decidable (ValidCustomApp C app) := by
  unfold ValidCustomApp; infer_instance

/-- A user-data object satisfying the invariants the mutating actions
establish: trimmed, non-empty, duplicate-free hidden ids, re-sanitizable
custom apps, and a normalized page size. -/
def ValidUserData (C : LaunchpadConstants) (u : LaunchpadUserData) : Prop :=
  (∀ id ∈ u.hiddenAppIds, jsTrim id = id ∧ id ≠ "") ∧
  u.hiddenAppIds.Nodup ∧
  (∀ app ∈ u.customApps, ValidCustomApp C app) ∧
  C.minPageSize ≤ u.pageSize ∧ u.pageSize ≤ C.maxPageSize ∧
  C.pageSizeStep ∣ u.pageSize

instance (C : LaunchpadConstants) (u : LaunchpadUserData) :
    Decidable (ValidUserData C u) := by
  unfold ValidUserData; infer_instance

/-- A fully valid persistent state. -/
def ValidState (C : LaunchpadConstants) (s : LaunchpadState) : Prop :=
  ValidSettings s.settings ∧ ValidUserData C s.userData

instance (C : LaunchpadConstants) (s : LaunchpadState) :
    Decidable (ValidState C s) := by
  unfold ValidState; infer_instance

/-! ## A concrete constants instance

Used to instantiate the parametric theorems on concrete inputs.  The
values are demonstration values satisfying `ValidConstants`; the real
`lib/constants.ts` is not among the provided sources. -/

/-- Demonstration constants: any values satisfying `ValidConstants` work
for the concrete instantiations below. -/
def demoConsts : LaunchpadConstants :=
  { minPageSize := 10
    maxPageSize := 50
    pageSizeStep := 5
    defaultPageSize := 20
    defaultIcon := "./icons/default-icon.svg"
    defaultSettings :=
      { backgroundType := .image
        backgroundColor := "#0f172a"
        backgroundImage := ""
        overlayOpacity := 2/5
        blurStrength := 10
        glassTintColor := "#0f172a"
        glassTintOpacity := 1/2
        hideDefaultApps := false
        mobileLayout := .grid
        hasCompletedSetup := false }
    defaultUserData := { hiddenAppIds := [], customApps := [], pageSize := 20 } }

/-! ## Arithmetic lemmas for the page-size normalizer -/

/-- `Math.round` of an integer is that integer. -/
lemma jsRound_intCast (n : ℤ) : jsRound (n : ℚ) = n := by
  unfold jsRound
  rw [add_comm, Int.floor_add_int]
  norm_num

/-- The step divides both branches' results when it divides the bounds. -/
lemma dvd_min_max {d a lo hi : ℤ} (ha : d ∣ a) (hlo : d ∣ lo) (hhi : d ∣ hi) :
    d ∣ min (max a lo) hi := by
  rcases min_choice (max a lo) hi with h | h <;> rw [h]
  · rcases max_choice a lo with h2 | h2 <;> rw [h2] <;> assumption
  · exact hhi

/-- The demonstration constants satisfy the spec's constraints. -/
lemma demoConsts_valid : ValidConstants demoConsts := by
  refine ⟨by norm_num [demoConsts], by norm_num [demoConsts], by norm_num [demoConsts],
    by norm_num [demoConsts], by norm_num [demoConsts], by norm_num [demoConsts],
    by norm_num [demoConsts], rfl, by decide, by decide,
    by norm_num [demoConsts], by norm_num [demoConsts], by norm_num [demoConsts],
    by norm_num [demoConsts], by norm_num [demoConsts], by norm_num [demoConsts],
    by decide, by decide⟩

/-- C9: for every input value, `normalizePageSize` returns an integer in
`[MIN_PAGE_SIZE, MAX_PAGE_SIZE]` that is a multiple of `PAGE_SIZE_STEP`;
and for an input of `999` (at least `MAX_PAGE_SIZE`) it returns
`MAX_PAGE_SIZE` rounded to the nearest step — which, the step dividing
the bound, is `MAX_PAGE_SIZE` itself. -/
theorem normalizePageSize_clamped_multiple (C : LaunchpadConstants)
    (h : ValidConstants C) :
    (∀ v : Option ℚ,
      C.minPageSize ≤ normalizePageSize C v ∧
      normalizePageSize C v ≤ C.maxPageSize ∧
      C.pageSizeStep ∣ normalizePageSize C v) ∧
    (C.maxPageSize ≤ 999 → normalizePageSize C (some 999) = C.maxPageSize) := by
  obtain ⟨hstep, hminmax, hdmin, hdmax, -, -, -, -⟩ := h
  constructor
  · intro v
    simp only [normalizePageSize]
    by_cases hs : C.pageSizeStep ≤ 1
    · simp only [if_pos hs]
      refine ⟨le_inf le_sup_right hminmax, inf_le_right, ?_⟩
      have h1 : C.pageSizeStep = 1 := le_antisymm hs hstep
      rw [h1]
      exact one_dvd _
    · simp only [if_neg hs]
      exact ⟨le_inf le_sup_right hminmax, inf_le_right,
        dvd_min_max (dvd_mul_left _ _) hdmin hdmax⟩
  · intro h999
    have hmin999 : (C.minPageSize : ℚ) ≤ 999 := by
      exact_mod_cast le_trans hminmax h999
    simp only [normalizePageSize, clampNumber]
    rw [sup_eq_left.mpr hmin999, inf_eq_right.mpr (by exact_mod_cast h999 : (C.maxPageSize : ℚ) ≤ 999),
      jsRound_intCast]
    by_cases hs : C.pageSizeStep ≤ 1
    · simp only [if_pos hs]
      rw [sup_eq_left.mpr hminmax, inf_idem]
    · simp only [if_neg hs]
      obtain ⟨k, hk⟩ := hdmax
      have hstep0 : (C.pageSizeStep : ℚ) ≠ 0 := by
        exact_mod_cast ne_of_gt (lt_of_lt_of_le one_pos hstep)
      have hq : ((C.maxPageSize : ℚ)) / (C.pageSizeStep : ℚ) = (k : ℚ) := by
        rw [hk]; push_cast; rw [mul_comm]; field_simp
      rw [hq, jsRound_intCast, mul_comm, ← hk, sup_eq_left.mpr hminmax, inf_idem]

/-- Concrete instantiation of `normalizePageSize_clamped_multiple` at the
demonstration constants. -/
theorem normalizePageSize_clamped_multiple_witness :
    ValidConstants demoConsts ∧
    (demoConsts.minPageSize ≤ normalizePageSize demoConsts (some 37) ∧
      normalizePageSize demoConsts (some 37) ≤ demoConsts.maxPageSize ∧
      demoConsts.pageSizeStep ∣ normalizePageSize demoConsts (some 37)) ∧
    normalizePageSize demoConsts (some 999) = demoConsts.maxPageSize :=
  ⟨demoConsts_valid,
    (normalizePageSize_clamped_multiple demoConsts demoConsts_valid).1 (some 37),
    (normalizePageSize_clamped_multiple demoConsts demoConsts_valid).2 (by norm_num [demoConsts])⟩

/-! ## Trimming lemmas -/

/-- `trimChars` is right-trimming composed with left-trimming. -/
lemma trimChars_eq (l : List Char) :
    trimChars l = (l.dropWhile isJsWhitespace).rdropWhile isJsWhitespace := rfl

/-- A left-trimmed list is untouched by a further left trim, even after a
right trim. -/
lemma dropWhile_rdropWhile_of_dropWhile {p : Char → Bool} {m : List Char}
    (hm : m.dropWhile p = m) : (m.rdropWhile p).dropWhile p = m.rdropWhile p := by
  rcases hr : m.rdropWhile p with - | ⟨c, rest⟩
  · simp
  · have hpre : m.rdropWhile p <+: m := List.rdropWhile_prefix p m
    rw [hr] at hpre
    obtain ⟨t, ht⟩ := hpre
    have hc : p c = false := by
      have := hm
      rw [← ht] at this
      rcases hpc : p c with - | -
      · rfl
      · rw [List.cons_append, List.dropWhile_cons_of_pos hpc] at this
        have hlen := congrArg List.length this
        have hle := (List.dropWhile_sublist (l := rest ++ t) p).length_le
        simp only [List.length_cons] at hlen
        omega
    rw [List.dropWhile_cons_of_neg (by simp [hc])]

/-- Trimming is idempotent. -/
lemma trimChars_idem (l : List Char) : trimChars (trimChars l) = trimChars l := by
  rw [trimChars_eq, trimChars_eq]
  have h1 : (l.dropWhile isJsWhitespace).dropWhile isJsWhitespace
      = l.dropWhile isJsWhitespace := List.dropWhile_idempotent _ _
  rw [dropWhile_rdropWhile_of_dropWhile h1, List.rdropWhile_idempotent]

/-- `trim` is idempotent. -/
lemma jsTrim_idem (s : String) : jsTrim (jsTrim s) = jsTrim s := by
  unfold jsTrim
  exact congrArg String.mk (trimChars_idem s.data)

/-- A list free of whitespace is untouched by trimming. -/
lemma trimChars_eq_self {l : List Char}
    (h : ∀ c ∈ l, isJsWhitespace c = false) : trimChars l = l := by
  rw [trimChars_eq, List.dropWhile_eq_self_iff.mpr, List.rdropWhile_eq_self_iff.mpr]
  · intro hl
    simp [h _ (List.getLast_mem hl)]
  · intro hl
    simp [h _ (l.getElem_mem hl)]

/-- The last character of a trimmed non-empty list is not whitespace. -/
lemma trimChars_getLast {l : List Char} (h : trimChars l ≠ []) :
    isJsWhitespace ((trimChars l).getLast h) = false := by
  have hself : (trimChars l).rdropWhile isJsWhitespace = trimChars l := by
    rw [trimChars_eq, List.rdropWhile_idempotent]
  simpa using List.rdropWhile_eq_self_iff.mp hself h

/-- Prepending a string that starts with a non-whitespace character to an
already-trimmed non-empty string gives a trimmed string. -/
lemma trimChars_cons_append_trimmed (c : Char) (pre : List Char) (s : String)
    (hc : isJsWhitespace c = false) (hs : trimChars s.data ≠ []) :
    trimChars ((c :: pre) ++ trimChars s.data) = (c :: pre) ++ trimChars s.data := by
  rw [trimChars_eq]
  rw [List.cons_append, List.dropWhile_cons_of_neg (by simp [hc]), ← List.cons_append]
  rw [List.rdropWhile_eq_self_iff.mpr]
  intro hl
  rw [List.getLast_append_of_ne_nil hs]
  simp [trimChars_getLast hs]

/-- Scheme scanning steps over `https` and stops at the colon. -/
lemma dropWhile_scheme_https (r : List Char) :
    List.dropWhile isSchemeChar ('h' :: 't' :: 't' :: 'p' :: 's' :: ':' :: r) = ':' :: r := by
  rw [List.dropWhile_cons_of_pos (by decide), List.dropWhile_cons_of_pos (by decide),
    List.dropWhile_cons_of_pos (by decide), List.dropWhile_cons_of_pos (by decide),
    List.dropWhile_cons_of_pos (by decide), List.dropWhile_cons_of_neg (by decide)]

/-- A `special` result of the URL parser carries an `http` or `https`
scheme. -/
lemma urlParse_special_scheme {s sch host path : String}
    (h : urlParse s = some (.special sch host path)) :
    sch = "http" ∨ sch = "https" := by
  unfold urlParse at h
  rcases hsp : splitScheme s.data with - | ⟨schl, rest⟩ <;> rw [hsp] at h
  · exact absurd h (by simp)
  · dsimp only at h
    split at h
    · rename_i hcond
      split at h
      · split at h
        · exact absurd h (by simp)
        · simp only [Option.some.injEq, UrlParsed.special.injEq] at h
          obtain ⟨hsch, -, -⟩ := h
          rw [← hsch]
          simpa using hcond
      · exact absurd h (by simp)
    · exact absurd h (by simp)

/-- Scheme scanning keeps exactly `https` before the colon. -/
lemma takeWhile_scheme_https (r : List Char) :
    List.takeWhile isSchemeChar ('h' :: 't' :: 't' :: 'p' :: 's' :: ':' :: r)
      = ['h', 't', 't', 'p', 's'] := by
  rw [List.takeWhile_cons_of_pos (by decide), List.takeWhile_cons_of_pos (by decide),
    List.takeWhile_cons_of_pos (by decide), List.takeWhile_cons_of_pos (by decide),
    List.takeWhile_cons_of_pos (by decide), List.takeWhile_cons_of_neg (by decide)]

/-- The scheme split of a string of the form `https:...`. -/
lemma splitScheme_https (r : List Char) :
    splitScheme ('h' :: 't' :: 't' :: 'p' :: 's' :: ':' :: r)
      = some (['h', 't', 't', 'p', 's'], r) := by
  simp only [splitScheme]
  rw [if_pos (by decide), dropWhile_scheme_https, takeWhile_scheme_https]
  rfl

/-- A string starting with `h` does not pass the `javascript:` prefix
test. -/
lemma isJavascriptScheme_head_h {l : List Char} (hh : l.head? = some 'h') :
    isJavascriptScheme ⟨l⟩ = false := by
  cases l with
  | nil => cases hh
  | cons c tl =>
    injection hh with h
    subst h
    simp [isJavascriptScheme, List.isPrefixOf, List.map_cons]

/-- A string starting with `h` is not protocol-relative. -/
lemma startsWithDoubleSlash_head_h {l : List Char} (hh : l.head? = some 'h') :
    startsWithDoubleSlash ⟨l⟩ = false := by
  cases l with
  | nil => cases hh
  | cons c tl =>
    injection hh with h
    subst h
    rcases tl with - | ⟨d, tl⟩ <;> rfl

/-- Head-generalized form of `trimChars_cons_append_trimmed`. -/
lemma trimChars_append_trimmed {pre : List Char} {c : Char} (s : String)
    (hh : pre.head? = some c) (hc : isJsWhitespace c = false)
    (hnt : trimChars s.data ≠ []) :
    trimChars (pre ++ trimChars s.data) = pre ++ trimChars s.data := by
  cases pre with
  | nil => cases hh
  | cons d rest =>
    injection hh with h
    subst h
    exact trimChars_cons_append_trimmed _ rest s hc hnt

/-- String-level form: prefixing a trimmed non-empty string with a
non-whitespace-leading literal leaves it trimmed. -/
lemma jsTrim_append_jsTrim {pre : String} {c : Char} (s : String)
    (hh : pre.data.head? = some c) (hc : isJsWhitespace c = false)
    (hs : jsTrim s ≠ "") :
    jsTrim (pre ++ jsTrim s) = pre ++ jsTrim s := by
  have hnt : trimChars s.data ≠ [] := by
    intro h
    exact hs (congrArg String.mk h)
  have hd : (pre ++ jsTrim s).data = pre.data ++ trimChars s.data := by
    simp [jsTrim]
  show (⟨trimChars (pre ++ jsTrim s).data⟩ : String) = pre ++ jsTrim s
  rw [hd, trimChars_append_trimmed s hh hc hnt]
  exact congrArg String.mk hd.symm

/-- C5: `sanitizeHttpUrl` trims its input; returns `""` for empty and for
`javascript:`-scheme input and whenever the URL parse fails (the model is
total, so no exception escapes); prefixes `https:` to protocol-relative
input and `https://` to scheme-less input; and its output is either `""`
or a canonical `http://`/`https://` URL string.  In particular
`sanitizeUrl("javascript:alert(1)") = ""`,
`sanitizeUrl("example.com") = "https://example.com/"`, and
`sanitizeUrl("//example.com/x")` starts with `https://`. -/
theorem sanitizeHttpUrl_spec :
    (∀ s : String, sanitizeHttpUrl (some s) = sanitizeHttpUrl (some (jsTrim s))) ∧
    (∀ s : String, jsTrim s = "" → sanitizeHttpUrl (some s) = "") ∧
    (∀ s : String, isJavascriptScheme (jsTrim s) = true → sanitizeHttpUrl (some s) = "") ∧
    (∀ s : String, jsTrim s ≠ "" → isJavascriptScheme (jsTrim s) = false →
      startsWithDoubleSlash (jsTrim s) = true →
      sanitizeHttpUrl (some s) = sanitizeHttpUrl (some ("https:" ++ jsTrim s))) ∧
    (∀ s : String, jsTrim s ≠ "" → isJavascriptScheme (jsTrim s) = false →
      startsWithDoubleSlash (jsTrim s) = false → hasUrlScheme (jsTrim s) = false →
      sanitizeHttpUrl (some s) = sanitizeHttpUrl (some ("https://" ++ jsTrim s))) ∧
    (∀ v : Option String, sanitizeHttpUrl v = "" ∨
      "http://".data.isPrefixOf (sanitizeHttpUrl v).data = true ∨
      "https://".data.isPrefixOf (sanitizeHttpUrl v).data = true) ∧
    sanitizeHttpUrl (some "javascript:alert(1)") = "" ∧
    sanitizeHttpUrl (some "example.com") = "https://example.com/" ∧
    sanitizeHttpUrl (some "//example.com/x") = "https://example.com/x" := by
  refine ⟨?_, ?_, ?_, ?_, ?_, ?_, by decide, by decide, by decide⟩
  · intro s
    simp only [sanitizeHttpUrl, jsTrim_idem]
  · intro s h
    simp only [sanitizeHttpUrl, h]
    simp
  · intro s h
    simp only [sanitizeHttpUrl, h]
    simp
  · intro s hne hjs hdd
    have hu : jsTrim ("https:" ++ jsTrim s) = "https:" ++ jsTrim s :=
      jsTrim_append_jsTrim s rfl (by decide) hne
    have hne2 : ¬("https:" ++ jsTrim s = "") := by
      intro h
      have := congrArg String.data h
      simp at this
    have hjs2 : isJavascriptScheme ("https:" ++ jsTrim s) = false :=
      isJavascriptScheme_head_h (l := ("https:" ++ jsTrim s).data) rfl
    have hdd2 : startsWithDoubleSlash ("https:" ++ jsTrim s) = false :=
      startsWithDoubleSlash_head_h (l := ("https:" ++ jsTrim s).data) rfl
    have hsch2 : hasUrlScheme ("https:" ++ jsTrim s) = true := by
      unfold hasUrlScheme
      have hdata : ("https:" ++ jsTrim s).data
          = 'h' :: 't' :: 't' :: 'p' :: 's' :: ':' :: (jsTrim s).data := rfl
      rw [hdata, splitScheme_https]
      rfl
    simp only [sanitizeHttpUrl, hu, hjs, hdd, hjs2, hdd2, hsch2,
      if_neg hne, if_neg hne2, Bool.false_eq_true, if_false, if_true,
      Bool.not_true, Bool.not_false]
  · intro s hne hjs hdd hsch
    have hu : jsTrim ("https://" ++ jsTrim s) = "https://" ++ jsTrim s :=
      jsTrim_append_jsTrim s rfl (by decide) hne
    have hne2 : ¬("https://" ++ jsTrim s = "") := by
      intro h
      have := congrArg String.data h
      simp at this
    have hjs2 : isJavascriptScheme ("https://" ++ jsTrim s) = false :=
      isJavascriptScheme_head_h (l := ("https://" ++ jsTrim s).data) rfl
    have hdd2 : startsWithDoubleSlash ("https://" ++ jsTrim s) = false :=
      startsWithDoubleSlash_head_h (l := ("https://" ++ jsTrim s).data) rfl
    have hsch2 : hasUrlScheme ("https://" ++ jsTrim s) = true := by
      unfold hasUrlScheme
      have hdata : ("https://" ++ jsTrim s).data
          = 'h' :: 't' :: 't' :: 'p' :: 's' :: ':' :: ('/' :: '/' :: (jsTrim s).data) := rfl
      rw [hdata, splitScheme_https]
      rfl
    simp only [sanitizeHttpUrl, hu, hjs, hdd, hsch, hjs2, hdd2, hsch2,
      if_neg hne, if_neg hne2, Bool.false_eq_true, if_false, if_true,
      Bool.not_true, Bool.not_false]
  · intro v
    rcases v with - | s
    · left
      rfl
    · simp only [sanitizeHttpUrl]
      by_cases h1 : jsTrim s = ""
      · left
        simp [h1]
      · rw [if_neg h1]
        by_cases h2 : isJavascriptScheme (jsTrim s) = true
        · left
          simp [h2]
        · rw [if_neg h2]
          rcases hp : urlParse (if startsWithDoubleSlash (jsTrim s) = true
              then "https:" ++ jsTrim s
              else if !hasUrlScheme (jsTrim s) then "https://" ++ jsTrim s
              else jsTrim s) with - | u
          · left
            rfl
          · rcases u with ⟨sch, host, path⟩ | ⟨sch, rest⟩
            · rcases urlParse_special_scheme hp with hs | hs <;> subst hs
              · right; left
                simp only [urlToString, List.isPrefixOf_iff_prefix, String.data_append]
                rw [show (['h', 't', 't', 'p', ':', '/', '/'] : List Char)
                    = ['h', 't', 't', 'p'] ++ [':', '/', '/'] from rfl,
                  List.append_assoc]
                exact List.prefix_append _ _
              · right; right
                simp only [urlToString, List.isPrefixOf_iff_prefix, String.data_append]
                rw [show (['h', 't', 't', 'p', 's', ':', '/', '/'] : List Char)
                    = ['h', 't', 't', 'p', 's'] ++ [':', '/', '/'] from rfl,
                  List.append_assoc]
                exact List.prefix_append _ _
            · left
              rfl

/-- Concrete instantiation of `sanitizeHttpUrl_spec`: the protocol-relative
branch at `"  //example.com/x "`. -/
theorem sanitizeHttpUrl_spec_witness :
    jsTrim "  //example.com/x " ≠ "" ∧
    sanitizeHttpUrl (some "  //example.com/x ")
      = sanitizeHttpUrl (some ("https:" ++ jsTrim "  //example.com/x ")) :=
  ⟨by decide,
    sanitizeHttpUrl_spec.2.2.2.1 "  //example.com/x " (by decide) (by decide) (by decide)⟩

/-- Lowercase-hex-digit test, restated on character codes. -/
lemma isLowerHexDigit_iff (c : Char) :
    (('0' ≤ c && c ≤ '9') || ('a' ≤ c && c ≤ 'f')) = true ↔
      (48 ≤ c.toNat ∧ c.toNat ≤ 57) ∨ (97 ≤ c.toNat ∧ c.toNat ≤ 102) := by
  simp only [Bool.or_eq_true, Bool.and_eq_true, decide_eq_true_eq, Char.le_def]
  constructor
  · rintro (⟨h1, h2⟩ | ⟨h1, h2⟩)
    · exact Or.inl ⟨h1, h2⟩
    · exact Or.inr ⟨h1, h2⟩
  · rintro (⟨h1, h2⟩ | ⟨h1, h2⟩)
    · exact Or.inl ⟨h1, h2⟩
    · exact Or.inr ⟨h1, h2⟩

/-- Every lowercase hex digit character is `Nat.digitChar` of its value. -/
lemma lowerHex_exists (c : Char)
    (h : (('0' ≤ c && c ≤ '9') || ('a' ≤ c && c ≤ 'f')) = true) :
    ∃ d : Fin 16, c = Nat.digitChar d ∧ hexDigitVal c = some (d : ℕ) := by
  rcases (isLowerHexDigit_iff c).mp h with ⟨h1, h2⟩ | ⟨h1, h2⟩ <;>
    · have hc : c = Char.ofNat c.toNat := (Char.ofNat_toNat c).symm
      set n := c.toNat with hn
      interval_cases n <;> (rw [hc]; decide)

/-- Facts about the sixteen digit characters, checked by computation. -/
lemma digitChar_facts :
    ∀ x : Fin 16,
      hexDigitVal (Nat.digitChar x) = some (x : ℕ) ∧
      isJsWhitespace (Nat.digitChar x) = false ∧
      (('0' ≤ Nat.digitChar x && Nat.digitChar x ≤ '9')
        || ('a' ≤ Nat.digitChar x && Nat.digitChar x ≤ 'f')) = true := by
  decide

/-- `hexDigitVal` inverts `Nat.digitChar` below 16. -/
lemma hexDigitVal_digitChar {d : ℕ} (h : d < 16) :
    hexDigitVal (Nat.digitChar d) = some d :=
  (digitChar_facts ⟨d, h⟩).1

/-- Digit characters are not whitespace. -/
lemma digitChar_not_ws {d : ℕ} (h : d < 16) :
    isJsWhitespace (Nat.digitChar d) = false :=
  (digitChar_facts ⟨d, h⟩).2.1

/-- Digit characters below 16 are lowercase hex digits. -/
lemma digitChar_lower_hex {d : ℕ} (h : d < 16) :
    (('0' ≤ Nat.digitChar d && Nat.digitChar d ≤ '9')
      || ('a' ≤ Nat.digitChar d && Nat.digitChar d ≤ 'f')) = true :=
  (digitChar_facts ⟨d, h⟩).2.2

/-- The padded two-digit rendering, written with `/` and `%`. -/
lemma toHexPad2_eq (n : ℕ) :
    toHexPad2 n = [Nat.digitChar (n / 16), Nat.digitChar (n % 16)] := by
  unfold toHexPad2
  by_cases h16 : n < 16
  · rw [if_pos h16, Nat.div_eq_of_lt h16, Nat.mod_eq_of_lt h16]
    rfl
  · rw [if_neg h16]

/-- One step of the hex-parsing loop. -/
lemma parseHexAux_cons {c : Char} {d : ℕ} (acc : ℕ) (rest : List Char)
    (h : hexDigitVal c = some d) :
    parseHexAux acc (c :: rest) = parseHexAux (acc * 16 + d) rest := by
  simp [parseHexAux, h]

/-- The characters of a rendered color. -/
lemma rgbToHex_data (rgb : RGB) :
    (rgbToHex rgb).data =
      '#' :: [Nat.digitChar (rgb.r / 16), Nat.digitChar (rgb.r % 16),
        Nat.digitChar (rgb.g / 16), Nat.digitChar (rgb.g % 16),
        Nat.digitChar (rgb.b / 16), Nat.digitChar (rgb.b % 16)] := by
  show ('#' :: (toHexPad2 rgb.r ++ toHexPad2 rgb.g ++ toHexPad2 rgb.b)) = _
  rw [toHexPad2_eq, toHexPad2_eq, toHexPad2_eq]
  rfl

/-- A rendered byte-sized color is a normalized color string. -/
lemma isNormalizedHexColor_rgbToHex (rgb : RGB) (hr : rgb.r < 256)
    (hg : rgb.g < 256) (hb : rgb.b < 256) :
    isNormalizedHexColor (rgbToHex rgb) = true := by
  have hd := rgbToHex_data rgb
  unfold isNormalizedHexColor
  rw [hd]
  have h1 := digitChar_lower_hex (show rgb.r / 16 < 16 by omega)
  have h2 := digitChar_lower_hex (show rgb.r % 16 < 16 by omega)
  have h3 := digitChar_lower_hex (show rgb.g / 16 < 16 by omega)
  have h4 := digitChar_lower_hex (show rgb.g % 16 < 16 by omega)
  have h5 := digitChar_lower_hex (show rgb.b / 16 < 16 by omega)
  have h6 := digitChar_lower_hex (show rgb.b % 16 < 16 by omega)
  simp only [List.length_cons, List.length_nil, List.all_cons, List.all_nil,
    h1, h2, h3, h4, h5, h6]
  simp

/-- Parsing six digit characters yields their base-16 value. -/
lemma parseHexPrefix_six {d1 d2 d3 d4 d5 d6 : ℕ}
    (h1 : d1 < 16) (h2 : d2 < 16) (h3 : d3 < 16)
    (h4 : d4 < 16) (h5 : d5 < 16) (h6 : d6 < 16) :
    parseHexPrefix [Nat.digitChar d1, Nat.digitChar d2, Nat.digitChar d3,
      Nat.digitChar d4, Nat.digitChar d5, Nat.digitChar d6]
      = some (((((d1 * 16 + d2) * 16 + d3) * 16 + d4) * 16 + d5) * 16 + d6) := by
  simp only [parseHexPrefix, hexDigitVal_digitChar h1]
  rw [parseHexAux_cons _ _ (hexDigitVal_digitChar h2),
    parseHexAux_cons _ _ (hexDigitVal_digitChar h3),
    parseHexAux_cons _ _ (hexDigitVal_digitChar h4),
    parseHexAux_cons _ _ (hexDigitVal_digitChar h5),
    parseHexAux_cons _ _ (hexDigitVal_digitChar h6)]
  rfl

/-- `hexToRgb` on a `#`-prefixed six-digit string. -/
lemma hexToRgb_digit_data {s : String} {d1 d2 d3 d4 d5 d6 : ℕ}
    (hd : s.data = '#' :: [Nat.digitChar d1, Nat.digitChar d2, Nat.digitChar d3,
      Nat.digitChar d4, Nat.digitChar d5, Nat.digitChar d6])
    (h1 : d1 < 16) (h2 : d2 < 16) (h3 : d3 < 16)
    (h4 : d4 < 16) (h5 : d5 < 16) (h6 : d6 < 16) :
    hexToRgb (some s) = some ⟨d1 * 16 + d2, d3 * 16 + d4, d5 * 16 + d6⟩ := by
  have hws : ∀ c ∈ ('#' :: [Nat.digitChar d1, Nat.digitChar d2, Nat.digitChar d3,
      Nat.digitChar d4, Nat.digitChar d5, Nat.digitChar d6]), isJsWhitespace c = false := by
    intro c hc
    simp only [List.mem_cons, List.not_mem_nil, or_false] at hc
    rcases hc with rfl | rfl | rfl | rfl | rfl | rfl | rfl
    · decide
    · exact digitChar_not_ws h1
    · exact digitChar_not_ws h2
    · exact digitChar_not_ws h3
    · exact digitChar_not_ws h4
    · exact digitChar_not_ws h5
    · exact digitChar_not_ws h6
  unfold hexToRgb
  dsimp only
  rw [hd, trimChars_eq_self hws]
  simp only [List.isEmpty_cons, List.head?_cons, List.tail_cons, List.length_cons,
    List.length_nil, if_pos rfl]
  norm_num
  rw [parseHexPrefix_six h1 h2 h3 h4 h5 h6]
  simp only [Option.some.injEq]
  refine RGB.mk.injEq _ _ _ _ _ _ ▸ ?_
  refine ⟨?_, ?_, ?_⟩ <;> omega

/-- Parsing a rendered color recovers the components. -/
lemma hexToRgb_rgbToHex (rgb : RGB) (hr : rgb.r < 256) (hg : rgb.g < 256)
    (hb : rgb.b < 256) : hexToRgb (some (rgbToHex rgb)) = some rgb := by
  obtain ⟨r, g, b⟩ := rgb
  simp only at hr hg hb
  have hdata : (rgbToHex ⟨r, g, b⟩).data
      = '#' :: [Nat.digitChar (r / 16), Nat.digitChar (r % 16), Nat.digitChar (g / 16),
        Nat.digitChar (g % 16), Nat.digitChar (b / 16), Nat.digitChar (b % 16)] :=
    rgbToHex_data ⟨r, g, b⟩
  have h := hexToRgb_digit_data hdata
    (by omega) (by omega) (by omega) (by omega) (by omega) (by omega)
  rw [h]
  simp only [Option.some.injEq, RGB.mk.injEq]
  refine ⟨by omega, by omega, by omega⟩

/-- The components produced from a parsed value are masked to bytes. -/
lemma hexMatch_bounds {X : List Char} {rgb : RGB}
    (h : (match parseHexPrefix X with
      | none => none
      | some value =>
        some (⟨value / 2 ^ 16 % 2 ^ 8, value / 2 ^ 8 % 2 ^ 8, value % 2 ^ 8⟩ : RGB))
      = some rgb) :
    rgb.r < 256 ∧ rgb.g < 256 ∧ rgb.b < 256 := by
  rcases hp : parseHexPrefix X with - | value <;> rw [hp] at h
  · cases h
  · injection h with h
    subst h
    refine ⟨?_, ?_, ?_⟩ <;> exact Nat.mod_lt _ (by norm_num)

/-- `hexToRgb` only produces byte-sized components. -/
lemma hexToRgb_bounds {v : Option String} {rgb : RGB}
    (h : hexToRgb v = some rgb) : rgb.r < 256 ∧ rgb.g < 256 ∧ rgb.b < 256 := by
  rcases v with - | s
  · cases h
  · unfold hexToRgb at h
    dsimp only at h
    repeat first
    | exact hexMatch_bounds h
    | cases h
    | split at h

/-- A normalized color string decomposes into six digit values. -/
lemma isNormalizedHexColor_elim {s : String} (h : isNormalizedHexColor s = true) :
    ∃ d1 d2 d3 d4 d5 d6 : ℕ, d1 < 16 ∧ d2 < 16 ∧ d3 < 16 ∧ d4 < 16 ∧ d5 < 16 ∧ d6 < 16 ∧
      s.data = '#' :: [Nat.digitChar d1, Nat.digitChar d2, Nat.digitChar d3,
        Nat.digitChar d4, Nat.digitChar d5, Nat.digitChar d6] := by
  unfold isNormalizedHexColor at h
  rcases hd : s.data with - | ⟨c, rest⟩ <;> rw [hd] at h
  · cases h
  · split at h
    · rename_i heq
      injection heq with heq1 heq2
      subst heq1
      subst heq2
      simp only [Bool.and_eq_true, decide_eq_true_eq, List.all_eq_true] at h
      obtain ⟨hlen, hall⟩ := h
      rcases rest with - | ⟨c1, rest⟩; · simp at hlen
      rcases rest with - | ⟨c2, rest⟩; · simp at hlen
      rcases rest with - | ⟨c3, rest⟩; · simp at hlen
      rcases rest with - | ⟨c4, rest⟩; · simp at hlen
      rcases rest with - | ⟨c5, rest⟩; · simp at hlen
      rcases rest with - | ⟨c6, rest⟩; · simp at hlen
      rcases rest with - | ⟨c7, rest⟩
      swap
      · simp at hlen
      obtain ⟨e1, he1, hv1⟩ := lowerHex_exists c1 (by simpa using hall c1 (by simp))
      obtain ⟨e2, he2, hv2⟩ := lowerHex_exists c2 (by simpa using hall c2 (by simp))
      obtain ⟨e3, he3, hv3⟩ := lowerHex_exists c3 (by simpa using hall c3 (by simp))
      obtain ⟨e4, he4, hv4⟩ := lowerHex_exists c4 (by simpa using hall c4 (by simp))
      obtain ⟨e5, he5, hv5⟩ := lowerHex_exists c5 (by simpa using hall c5 (by simp))
      obtain ⟨e6, he6, hv6⟩ := lowerHex_exists c6 (by simpa using hall c6 (by simp))
      exact ⟨e1, e2, e3, e4, e5, e6, e1.isLt, e2.isLt, e3.isLt, e4.isLt, e5.isLt, e6.isLt,
        by simp only [hd, he1, he2, he3, he4, he5, he6]⟩
    · cases h

/-- A normalized color is a fixed point of `resolveHexColor`. -/
lemma resolveHexColor_self {c : String} (fb : String)
    (h : isNormalizedHexColor c = true) : resolveHexColor (some c) fb = c := by
  obtain ⟨d1, d2, d3, d4, d5, d6, h1, h2, h3, h4, h5, h6, hd⟩ :=
    isNormalizedHexColor_elim h
  have e1 : (d1 * 16 + d2) / 16 = d1 := by omega
  have e2 : (d1 * 16 + d2) % 16 = d2 := by omega
  have e3 : (d3 * 16 + d4) / 16 = d3 := by omega
  have e4 : (d3 * 16 + d4) % 16 = d4 := by omega
  have e5 : (d5 * 16 + d6) / 16 = d5 := by omega
  have e6 : (d5 * 16 + d6) % 16 = d6 := by omega
  have hdata : (rgbToHex ⟨d1 * 16 + d2, d3 * 16 + d4, d5 * 16 + d6⟩).data = c.data := by
    rw [rgbToHex_data]
    dsimp only
    rw [hd, e1, e2, e3, e4, e5, e6]
  unfold resolveHexColor
  rw [hexToRgb_digit_data hd h1 h2 h3 h4 h5 h6]
  dsimp only
  exact congrArg String.mk hdata

/-- `resolveHexColor` always yields a normalized color when the fallback
is normalized. -/
lemma resolveHexColor_normalized (v : Option String) (fb : String)
    (hfb : isNormalizedHexColor fb = true) :
    isNormalizedHexColor (resolveHexColor v fb) = true := by
  unfold resolveHexColor
  rcases hv : hexToRgb v with - | rgb
  · rcases hf : hexToRgb (some fb) with - | rgbf
    · exact hfb
    · obtain ⟨b1, b2, b3⟩ := hexToRgb_bounds hf
      exact isNormalizedHexColor_rgbToHex _ b1 b2 b3
  · obtain ⟨b1, b2, b3⟩ := hexToRgb_bounds hv
    exact isNormalizedHexColor_rgbToHex _ b1 b2 b3

/-- `clampNumber` lands in `[lo, hi]` whenever the fallback does. -/
lemma clampNumber_mem (v : Option ℚ) {lo hi fb : ℚ} (hlohi : lo ≤ hi)
    (h1 : lo ≤ fb) (h2 : fb ≤ hi) :
    lo ≤ clampNumber v lo hi fb ∧ clampNumber v lo hi fb ≤ hi := by
  rcases v with - | q
  · exact ⟨h1, h2⟩
  · exact ⟨le_inf le_sup_right hlohi, inf_le_right⟩

/-- C6: for every base settings object and arbitrarily malformed or
partial update, `updateSettingsFromForm` returns a fully-valid settings
object: `backgroundType` is `color` exactly on an exact match and `image`
otherwise, the colors are normalized 6-hex-digit strings, the opacities
and blur are clamped into their ranges, and `mobileLayout` is `grid` or
`list`. -/
theorem updateSettingsFromForm_valid (C : LaunchpadConstants) (h : ValidConstants C)
    (base : LaunchpadSettings) (upd : SettingsPartial) :
    (updateSettingsFromForm C base upd).backgroundType
      = (if upd.backgroundType = some "color" then .color else .image) ∧
    isNormalizedHexColor (updateSettingsFromForm C base upd).backgroundColor = true ∧
    isNormalizedHexColor (updateSettingsFromForm C base upd).glassTintColor = true ∧
    (0 : ℚ) ≤ (updateSettingsFromForm C base upd).overlayOpacity ∧
    (updateSettingsFromForm C base upd).overlayOpacity ≤ 3/5 ∧
    (0 : ℚ) ≤ (updateSettingsFromForm C base upd).blurStrength ∧
    (updateSettingsFromForm C base upd).blurStrength ≤ 20 ∧
    (1/20 : ℚ) ≤ (updateSettingsFromForm C base upd).glassTintOpacity ∧
    (updateSettingsFromForm C base upd).glassTintOpacity ≤ 19/20 ∧
    ((updateSettingsFromForm C base upd).mobileLayout = .grid ∨
      (updateSettingsFromForm C base upd).mobileLayout = .list) := by
  obtain ⟨-, -, -, -, -, -, -, -, hc1, hc2, ho1, ho2, hb1, hb2, hg1, hg2, -, -⟩ := h
  refine ⟨rfl, resolveHexColor_normalized _ _ hc1, resolveHexColor_normalized _ _ hc2,
    (clampNumber_mem _ (by norm_num) ho1 ho2).1,
    (clampNumber_mem _ (by norm_num) ho1 ho2).2,
    (clampNumber_mem _ (by norm_num) hb1 hb2).1,
    (clampNumber_mem _ (by norm_num) hb1 hb2).2,
    (clampNumber_mem _ (by norm_num) hg1 hg2).1,
    (clampNumber_mem _ (by norm_num) hg1 hg2).2, ?_⟩
  have hproj : (updateSettingsFromForm C base upd).mobileLayout
      = (if upd.mobileLayout = some "list" then MobileLayout.list
        else if upd.mobileLayout = some "grid" then MobileLayout.grid
        else base.mobileLayout) := rfl
  rw [hproj]
  by_cases hml : upd.mobileLayout = some "list"
  · rw [if_pos hml]
    right
    rfl
  · rw [if_neg hml]
    by_cases hmg : upd.mobileLayout = some "grid"
    · rw [if_pos hmg]
      left
      rfl
    · rw [if_neg hmg]
      cases base.mobileLayout
      · left
        rfl
      · right
        rfl

/-- Concrete instantiation of `updateSettingsFromForm_valid` on a
thoroughly malformed update. -/
theorem updateSettingsFromForm_valid_witness :
    ValidConstants demoConsts ∧
    isNormalizedHexColor
      (updateSettingsFromForm demoConsts demoConsts.defaultSettings
        { backgroundType := some "garbage"
          backgroundColor := some "not-a-color"
          backgroundImage := some "javascript:alert(1)"
          overlayOpacity := some 5
          blurStrength := none
          glassTintColor := some ""
          glassTintOpacity := some (-3)
          hideDefaultApps := none
          mobileLayout := some "diagonal"
          hasCompletedSetup := none }).backgroundColor = true :=
  ⟨demoConsts_valid,
    (updateSettingsFromForm_valid demoConsts demoConsts_valid
      demoConsts.defaultSettings _).2.1⟩

/-! ## Uniqueness of resolved ids -/

/-- With enough fuel, `digitsAux` agrees with `Nat.digits`. -/
lemma digitsAux_eq_digits {b : ℕ} (hb : 2 ≤ b) :
    ∀ (fuel n : ℕ), n ≤ fuel → digitsAux b fuel n = Nat.digits b n := by
  intro fuel
  induction fuel with
  | zero =>
    intro n hn
    interval_cases n
    simp [digitsAux]
  | succ fuel ih =>
    intro n hn
    by_cases h0 : n = 0
    · simp [digitsAux, h0]
    · rw [show digitsAux b (fuel + 1) n = n % b :: digitsAux b fuel (n / b) by
        simp [digitsAux, h0]]
      have hdiv : n / b < n := Nat.div_lt_self (Nat.pos_of_ne_zero h0) (by omega)
      rw [ih (n / b) (by omega)]
      rw [Nat.digits_def' (by omega) (Nat.pos_of_ne_zero h0)]

/-- The decimal rendering of a positive number is non-empty. -/
lemma natToString_length_pos {n : ℕ} (h : 0 < n) : 0 < (natToString n).length := by
  unfold natToString
  rw [if_neg h.ne', digitsAux_eq_digits (by norm_num) n n le_rfl]
  show 0 < ((Nat.digits 10 n).reverse.map Nat.digitChar).length
  rw [List.length_map, List.length_reverse]
  exact List.length_pos.mpr (Nat.digits_ne_nil_iff_ne_zero.mpr h.ne')

/-- Decimal rendering is injective on positive numbers. -/
lemma natToString_inj {n m : ℕ} (hn : 0 < n) (hm : 0 < m)
    (h : natToString n = natToString m) : n = m := by
  unfold natToString at h
  rw [if_neg hn.ne', if_neg hm.ne', digitsAux_eq_digits (by norm_num) n n le_rfl,
    digitsAux_eq_digits (by norm_num) m m le_rfl] at h
  have hl := congrArg String.data h
  simp only at hl
  have h2 := congrArg (List.map hexDigitVal) hl
  rw [List.map_map, List.map_map] at h2
  have e1 : List.map (hexDigitVal ∘ Nat.digitChar) (Nat.digits 10 n).reverse
      = List.map some (Nat.digits 10 n).reverse :=
    List.map_congr_left (fun a ha => hexDigitVal_digitChar
      (lt_trans (Nat.digits_lt_base (by norm_num) (List.mem_reverse.mp ha)) (by norm_num)))
  have e2 : List.map (hexDigitVal ∘ Nat.digitChar) (Nat.digits 10 m).reverse
      = List.map some (Nat.digits 10 m).reverse :=
    List.map_congr_left (fun a ha => hexDigitVal_digitChar
      (lt_trans (Nat.digits_lt_base (by norm_num) (List.mem_reverse.mp ha)) (by norm_num)))
  rw [e1, e2] at h2
  have h3 := List.map_injective_iff.mpr (Option.some_injective ℕ) h2
  have h4 := List.reverse_injective h3
  calc n = Nat.ofDigits 10 (Nat.digits 10 n) := (Nat.ofDigits_digits 10 n).symm
    _ = Nat.ofDigits 10 (Nat.digits 10 m) := by rw [h4]
    _ = m := Nat.ofDigits_digits 10 m

/-- The candidate ids of the collision loop are pairwise distinct. -/
lemma candId_inj (base : String) : Function.Injective (candId base) := by
  intro i j h
  unfold candId at h
  by_cases hi : i = 0 <;> by_cases hj : j = 0
  · rw [hi, hj]
  · rw [if_pos hi, if_neg hj] at h
    have := congrArg String.length h
    rw [String.length_append, String.length_append] at this
    have h1 : 0 < (natToString (j + 1)).length := natToString_length_pos (by omega)
    have h2 : ("-" : String).length = 1 := rfl
    omega
  · rw [if_neg hi, if_pos hj] at h
    have := congrArg String.length h
    rw [String.length_append, String.length_append] at this
    have h1 : 0 < (natToString (i + 1)).length := natToString_length_pos (by omega)
    have h2 : ("-" : String).length = 1 := rfl
    omega
  · rw [if_neg hi, if_neg hj] at h
    have hd := congrArg String.data h
    simp only [String.data_append] at hd
    have h3 := List.append_cancel_left hd
    have h4 : natToString (i + 1) = natToString (j + 1) := by
      apply congrArg String.mk at h3
      simpa using h3
    have := natToString_inj (by omega) (by omega) h4
    omega

/-- The id chosen by the collision loop is not among the ids seen so
far (the first `seen.length + 1` candidates cannot all collide). -/
lemma freshId_not_mem (base : String) (seen : List String) :
    freshId base seen ∉ seen := by
  unfold freshId
  rcases hf : (List.range (seen.length + 1)).find?
      (fun k => !seen.contains (candId base k)) with - | k
  · exfalso
    have hall := List.find?_eq_none.mp hf
    have hsub : ((List.range (seen.length + 1)).map (candId base)) ⊆ seen := by
      intro x hx
      obtain ⟨k, hk, rfl⟩ := List.mem_map.mp hx
      have := hall k hk
      simpa using this
    have hnd : ((List.range (seen.length + 1)).map (candId base)).Nodup :=
      (List.nodup_range _).map (candId_inj base)
    have hle := (hnd.subperm hsub).length_le
    simp at hle
  · have hp := List.find?_some hf
    simpa using hp

/-- The loop of `ensureUniqueAppIds` produces pairwise distinct ids, all
of them fresh with respect to the accumulated `seen` set. -/
lemma ensureUniqueAux_spec (now : ℕ) (apps : List LaunchpadApp) :
    ∀ seen : List String,
      ((ensureUniqueAux now seen apps).map (fun a => a.id)).Nodup ∧
      ∀ a ∈ ensureUniqueAux now seen apps, a.id ∉ seen := by
  induction apps with
  | nil =>
    intro seen
    refine ⟨by simp [ensureUniqueAux], ?_⟩
    intro a ha
    simp [ensureUniqueAux] at ha
  | cons app rest ih =>
    intro seen
    simp only [ensureUniqueAux]
    set baseId :=
      if jsTrim app.id ≠ "" then jsTrim app.id
      else createSlugId (if app.origin = some "custom" then "custom" else "app") app.name now
      with hbase
    set u := freshId baseId seen with hu
    obtain ⟨ihn, ihs⟩ := ih (u :: seen)
    constructor
    · rw [List.map_cons, List.nodup_cons]
      refine ⟨?_, ihn⟩
      intro hmem
      obtain ⟨a, ha, hid⟩ := List.mem_map.mp hmem
      exact (ihs a ha) (hid ▸ List.mem_cons_self u seen)
    · intro a ha
      rcases List.mem_cons.mp ha with rfl | ha2
      · exact freshId_not_mem baseId seen
      · intro hmem
        exact (ihs a ha2) (List.mem_cons_of_mem u hmem)

/-- C2: for every input list, `ensureUniqueAppIds` emits no two records
with the same id; collisions are resolved with `-2`, `-3`, … suffixes in
input order, as the two same-named catalog records illustrate. -/
theorem ensureUniqueAppIds_nodup :
    (∀ (now : ℕ) (apps : List LaunchpadApp),
      ((ensureUniqueAppIds now apps).map (fun a => a.id)).Nodup) ∧
    (ensureUniqueAppIds 0
      [{ id := "", name := "Docs", description := "", url := "", icon := "",
          tags := [], origin := none },
        { id := "", name := "Docs", description := "", url := "", icon := "",
          tags := [], origin := none }]).map (fun a => a.id)
      = ["app-docs", "app-docs-2"] := by
  refine ⟨?_, by decide⟩
  intro now apps
  exact (ensureUniqueAux_spec now apps []).1

/-! ## Hidden-id pruning -/

/-- C4 counterexample: `dedupeHiddenIds` does not deduplicate — with the
id `"a"` listed twice and an app `"a"` present, it returns `["a", "a"]`,
so the claimed absence of duplicates fails. -/
theorem dedupeHiddenIds_dup_counterexample :
    ¬ ((dedupeHiddenIds (some [some "a", some "a"])
        [{ id := "a", name := "A", description := "", url := "", icon := "",
            tags := [], origin := some "catalog" }]).Nodup) := by
  decide

/-- Every id returned by `dedupeHiddenIds` is a trimmed non-empty id of
an app present in the list. -/
lemma dedupeHiddenIds_mem {hiddenIds : Option (List (Option String))}
    {apps : List LaunchpadApp} {id : String}
    (hid : id ∈ dedupeHiddenIds hiddenIds apps) :
    id ≠ "" ∧ jsTrim id = id ∧ id ∈ apps.map (fun a => a.id) := by
  rcases hiddenIds with - | l
  · simp [dedupeHiddenIds] at hid
  · unfold dedupeHiddenIds at hid
    simp only [List.mem_filter, List.mem_map, Bool.and_eq_true] at hid
    obtain ⟨⟨o, ho, hfo⟩, hemp, hcont⟩ := hid
    refine ⟨?_, ?_, ?_⟩
    · intro h
      rw [h] at hemp
      exact absurd hemp (by decide)
    · rcases o with - | s
      · exfalso
        rw [← hfo] at hemp
        exact absurd hemp (by decide)
      · rw [← hfo]
        exact jsTrim_idem s
    · simpa using hcont

/-- `dedupeHiddenIds` preserves freedom from duplicates. -/
lemma dedupeHiddenIds_nodup_of {l : List (Option String)}
    {apps : List LaunchpadApp}
    (hnd : (l.map (fun o => match o with | some s => jsTrim s | none => "")).Nodup) :
    (dedupeHiddenIds (some l) apps).Nodup := by
  unfold dedupeHiddenIds
  exact hnd.filter _

/-- C4 (amended): `dedupeHiddenIds` returns only trimmed non-empty ids
of apps present in the list; the result has no duplicates provided the
trimmed input entries are pairwise distinct (the function itself performs
no deduplication — its callers pass deduplicated sets). -/
theorem dedupeHiddenIds_spec :
    (∀ (hiddenIds : Option (List (Option String))) (apps : List LaunchpadApp),
      ∀ id ∈ dedupeHiddenIds hiddenIds apps,
        id ≠ "" ∧ jsTrim id = id ∧ id ∈ apps.map (fun a => a.id)) ∧
    (∀ (l : List (Option String)) (apps : List LaunchpadApp),
      (l.map (fun o => match o with | some s => jsTrim s | none => "")).Nodup →
      (dedupeHiddenIds (some l) apps).Nodup) :=
  ⟨fun _ _ _ hid => dedupeHiddenIds_mem hid,
    fun _ _ hnd => dedupeHiddenIds_nodup_of hnd⟩

/-- Concrete instantiation of `dedupeHiddenIds_spec`. -/
theorem dedupeHiddenIds_spec_witness :
    ("a" ∈ dedupeHiddenIds (some [some " a ", some "b"])
        [⟨"a", "A", "", "", "", [], some "catalog"⟩] ∧
      ("a" ≠ "" ∧ jsTrim "a" = "a" ∧
        "a" ∈ ([⟨"a", "A", "", "", "", [], some "catalog"⟩] : List LaunchpadApp).map
          (fun a => a.id))) ∧
    (([some " a ", some "b"].map
        (fun o => match o with | some s => jsTrim s | none => "")).Nodup ∧
      (dedupeHiddenIds (some [some " a ", some "b"])
        [⟨"a", "A", "", "", "", [], some "catalog"⟩]).Nodup) :=
  ⟨⟨by decide,
      dedupeHiddenIds_spec.1 (some [some " a ", some "b"])
        [⟨"a", "A", "", "", "", [], some "catalog"⟩] "a" (by decide)⟩,
    ⟨by decide,
      dedupeHiddenIds_spec.2 [some " a ", some "b"]
        [⟨"a", "A", "", "", "", [], some "catalog"⟩] (by decide)⟩⟩

/-! ## Backup import error handling -/

/-- C7: `importBackup` fails on a non-object value and when neither the
`settings` nor the `userData` key holds an object; and every failing
call leaves settings and user data completely unchanged. -/
theorem importBackup_failure_spec (C : LaunchpadConstants) :
    (∀ s : LaunchpadState,
      (importBackup C s .notObject).1.success = false ∧
      (importBackup C s .notObject).2 = s) ∧
    (∀ (s : LaunchpadState) (fs : BackupField SettingsPartial)
        (fu : BackupField ImportUserDataRaw),
      fs.isObj = false → fu.isObj = false →
      (importBackup C s (.payload fs fu)).1.success = false ∧
      (importBackup C s (.payload fs fu)).2 = s) ∧
    (∀ (s : LaunchpadState) (data : ImportValue),
      (importBackup C s data).1.success = false →
      (importBackup C s data).2 = s) := by
  refine ⟨fun s => ⟨rfl, rfl⟩, ?_, ?_⟩
  · intro s fs fu hfs hfu
    cases fs <;> cases fu <;> simp_all [importBackup, BackupField.isObj, BackupField.truthy]
  · intro s data hfail
    cases data with
    | notObject => rfl
    | payload fs fu =>
      cases fs <;> cases fu <;>
        simp_all [importBackup, BackupField.truthy]

/-- Concrete instantiation of `importBackup_failure_spec`: a payload
whose keys are both present but not objects. -/
theorem importBackup_failure_spec_witness :
    (BackupField.isObj (α := SettingsPartial) .truthyNonObject = false ∧
      BackupField.isObj (α := ImportUserDataRaw) .truthyNonObject = false) ∧
    (importBackup demoConsts (initState demoConsts)
        (.payload .truthyNonObject .truthyNonObject)).1.success = false ∧
    (importBackup demoConsts (initState demoConsts)
        (.payload .truthyNonObject .truthyNonObject)).2 = initState demoConsts :=
  ⟨⟨by decide, by decide⟩,
    ((importBackup_failure_spec demoConsts).2.1 (initState demoConsts)
      .truthyNonObject .truthyNonObject (by decide) (by decide)).1,
    ((importBackup_failure_spec demoConsts).2.1 (initState demoConsts)
      .truthyNonObject .truthyNonObject (by decide) (by decide)).2⟩

/-! ## Custom-app submission and removal unhide the affected ids -/

/-- C10: whenever `submitCustomApp` succeeds, both the saved app's id and
the previous id being edited are removed from `hiddenAppIds` (so editing
a hidden app makes it visible again); `removeCustomApp` likewise removes
the removed app's id. -/
theorem submitCustomApp_unhides (C : LaunchpadConstants) :
    (∀ (s : LaunchpadState) (input : CustomAppInput) (now : ℕ)
        (baseApp : LaunchpadApp),
      submitBase C input = .ok baseApp →
      (submitCustomApp C s input now).1.success = true ∧
      submitTargetId s input baseApp now
        ∉ (submitCustomApp C s input now).2.userData.hiddenAppIds ∧
      submitPreviousId input baseApp
        ∉ (submitCustomApp C s input now).2.userData.hiddenAppIds) ∧
    (∀ (s : LaunchpadState) (appId : String),
      appId ∉ (removeCustomApp s appId).userData.hiddenAppIds) := by
  constructor
  · intro s input now baseApp hok
    refine ⟨by simp [submitCustomApp, hok], ?_, ?_⟩
    · intro hmem
      simp [submitCustomApp, hok, List.mem_filter] at hmem
    · intro hmem
      simp [submitCustomApp, hok, List.mem_filter] at hmem
  · intro s appId hmem
    simp [removeCustomApp, List.mem_filter] at hmem

/-- Concrete instantiation of `submitCustomApp_unhides`. -/
theorem submitCustomApp_unhides_witness :
    submitBase demoConsts
        { id := none, name := "My App", url := "https://example.com/x",
          description := none, tagsInput := none, iconChoice := none,
          iconCustom := none }
      = .ok ⟨"", "My App", "", "https://example.com/x",
          "./icons/default-icon.svg", [], some "custom"⟩ ∧
    "custom-my-app"
      ∉ ((submitCustomApp demoConsts (initState demoConsts)
          { id := none, name := "My App", url := "https://example.com/x",
            description := none, tagsInput := none, iconChoice := none,
            iconCustom := none } 0).2.userData.hiddenAppIds) :=
  ⟨by rfl,
    (by decide :
        submitTargetId (initState demoConsts)
          { id := none, name := "My App", url := "https://example.com/x",
            description := none, tagsInput := none, iconChoice := none,
            iconCustom := none }
          ⟨"", "My App", "", "https://example.com/x",
            "./icons/default-icon.svg", [], some "custom"⟩ 0 = "custom-my-app") ▸
      ((submitCustomApp_unhides demoConsts).1 (initState demoConsts)
        { id := none, name := "My App", url := "https://example.com/x",
          description := none, tagsInput := none, iconChoice := none,
          iconCustom := none } 0
        ⟨"", "My App", "", "https://example.com/x",
          "./icons/default-icon.svg", [], some "custom"⟩ (by rfl)).2.1⟩

/-! ## Hidden-id bookkeeping across the session -/

/-- C3 counterexample: the merge recomputation does not prune
`hiddenAppIds`.  Importing a backup whose `userData.hiddenAppIds` is
`["ghost"]` is a reachable step, yet `"ghost"` names no app of the merged
collection, so the claimed invariant fails. -/
theorem hiddenIds_not_pruned_on_merge :
    ¬ (∀ s : LaunchpadState, Reachable demoConsts s →
        ∀ now : ℕ, ∀ id ∈ s.userData.hiddenAppIds,
          id ∈ (catalogAppsOf s now).map (fun a => a.id)) := by
  intro h
  have hreach : Reachable demoConsts (stepAction demoConsts (initState demoConsts)
      (.importData (.payload .falsyVal (.objVal ⟨none, some [some "ghost"], none⟩)))) :=
    Reachable.step _ Reachable.init
  have hmem := h _ hreach 0 "ghost" (by decide)
  exact absurd hmem (by decide)

/-- C3 (amended): `hiddenAppIds` is pruned against the current merged
collection by the hide and show actions (for a non-empty id), not by the
merge recomputation itself — stale ids admitted by an import or left by a
catalog change persist until the next hide/show. -/
theorem hideShow_prune_hidden (s : LaunchpadState) (appId : String) (now : ℕ)
    (h : appId ≠ "") :
    (∀ id ∈ (hideApp s appId now).userData.hiddenAppIds,
      id ∈ (catalogAppsOf (hideApp s appId now) now).map (fun a => a.id)) ∧
    (∀ id ∈ (showApp s appId now).userData.hiddenAppIds,
      id ∈ (catalogAppsOf (showApp s appId now) now).map (fun a => a.id)) := by
  constructor
  · intro id hid
    have heq : catalogAppsOf (hideApp s appId now) now = catalogAppsOf s now := by
      simp [hideApp, if_neg h, catalogAppsOf]
    rw [heq]
    rw [hideApp, if_neg h] at hid
    dsimp only at hid
    exact (dedupeHiddenIds_mem hid).2.2
  · intro id hid
    have heq : catalogAppsOf (showApp s appId now) now = catalogAppsOf s now := by
      simp [showApp, if_neg h, catalogAppsOf]
    rw [heq]
    rw [showApp, if_neg h] at hid
    dsimp only at hid
    exact (dedupeHiddenIds_mem hid).2.2

/-- Concrete instantiation of `hideShow_prune_hidden`. -/
theorem hideShow_prune_hidden_witness :
    ("x" : String) ≠ "" ∧
    (∀ id ∈ (hideApp (initState demoConsts) "x" 0).userData.hiddenAppIds,
      id ∈ (catalogAppsOf (hideApp (initState demoConsts) "x" 0) 0).map
        (fun a => a.id)) :=
  ⟨by decide, (hideShow_prune_hidden (initState demoConsts) "x" 0 (by decide)).1⟩

/-! ## Determinism of the record merger -/

/-- C1 counterexample: the merge is not a function of the catalog, custom
list and flag alone.  A record with no id whose name has no slug
characters takes the `Date.now()` fallback id, so two applications at
different instants produce different ids. -/
theorem mergeCollection_not_deterministic :
    ¬ (∀ (now1 now2 : ℕ) (baseCatalog customApps : List LaunchpadApp) (flag : Bool),
        mergeCollection now1 baseCatalog customApps flag
          = mergeCollection now2 baseCatalog customApps flag) := by
  intro h
  have hc := h 0 1 [⟨"", "!!!", "", "", "", [], none⟩] [] false
  exact absurd hc (by decide)

/-- The collision loop ignores the clock as long as no record takes the
timestamp fallback. -/
lemma ensureUniqueAux_time_indep (now1 now2 : ℕ) (apps : List LaunchpadApp)
    (h : ∀ a ∈ apps, jsTrim a.id ≠ "" ∨ slugOfName a.name ≠ []) :
    ∀ seen : List String,
      ensureUniqueAux now1 seen apps = ensureUniqueAux now2 seen apps := by
  induction apps with
  | nil => intro seen; rfl
  | cons app rest ih =>
    intro seen
    have happ := h app (List.mem_cons_self _ _)
    have hrest : ∀ a ∈ rest, jsTrim a.id ≠ "" ∨ slugOfName a.name ≠ [] :=
      fun a ha => h a (List.mem_cons_of_mem _ ha)
    simp only [ensureUniqueAux]
    have hbase :
        (if jsTrim app.id ≠ "" then jsTrim app.id
          else createSlugId (if app.origin = some "custom" then "custom" else "app")
            app.name now1)
        = (if jsTrim app.id ≠ "" then jsTrim app.id
          else createSlugId (if app.origin = some "custom" then "custom" else "app")
            app.name now2) := by
      by_cases hid : jsTrim app.id ≠ ""
      · rw [if_pos hid, if_pos hid]
      · rw [if_neg hid, if_neg hid]
        have hslug : slugOfName app.name ≠ [] := happ.resolve_left (by simpa using hid)
        have hne : (⟨slugOfName app.name⟩ : String) ≠ "" := by
          intro hcon
          exact hslug (congrArg String.data hcon)
        unfold createSlugId
        rw [if_neg hne, if_neg hne]
    rw [hbase, ih hrest]

/-- C1 (amended): applying the merge twice to the same inputs yields
identical output (byte-for-byte ids and order) provided every record
either carries a non-empty trimmed id or has a name with at least one
slug character — i.e. no record falls back to the timestamp-based id. -/
theorem mergeCollection_deterministic (now1 now2 : ℕ)
    (baseCatalog customApps : List LaunchpadApp) (flag : Bool)
    (h : ∀ app ∈ baseCatalog ++ customApps,
      jsTrim app.id ≠ "" ∨ slugOfName app.name ≠ []) :
    mergeCollection now1 baseCatalog customApps flag
      = mergeCollection now2 baseCatalog customApps flag := by
  unfold mergeCollection
  dsimp only
  congr 1
  unfold ensureUniqueAppIds
  apply ensureUniqueAux_time_indep
  intro a ha
  obtain ⟨b, hb, rfl⟩ := List.mem_map.mp ha
  have hb2 : b ∈ baseCatalog ++ customApps := by
    rcases flag with - | -
    · simpa using hb
    · simp only [if_pos rfl] at hb
      simp
      right
      simpa using hb
  rcases h b hb2 with hl | hr
  · left
    exact hl
  · right
    exact hr

/-- Concrete instantiation of `mergeCollection_deterministic`. -/
theorem mergeCollection_deterministic_witness :
    (∀ app ∈ ([⟨"", "Docs", "", "", "", [], none⟩] : List LaunchpadApp) ++ [],
      jsTrim app.id ≠ "" ∨ slugOfName app.name ≠ []) ∧
    mergeCollection 0 [⟨"", "Docs", "", "", "", [], none⟩] [] false
      = mergeCollection 99 [⟨"", "Docs", "", "", "", [], none⟩] [] false :=
  ⟨by decide,
    mergeCollection_deterministic 0 99 [⟨"", "Docs", "", "", "", [], none⟩] [] false
      (by decide)⟩

/-! ## Backup round trip -/

/-- The dedup loop keeps a list it has never seen intact. -/
lemma jsDedup_go_of_nodup (l : List String) :
    ∀ seen : List String, l.Nodup → (∀ x ∈ l, x ∉ seen) → jsDedup.go seen l = l := by
  induction l with
  | nil => intro seen _ _; rfl
  | cons x rest ih =>
    intro seen hnd hfresh
    rw [jsDedup.go, if_neg (hfresh x (List.mem_cons_self _ _))]
    congr 1
    apply ih (x :: seen) (List.nodup_cons.mp hnd).2
    intro y hy hmem
    rcases List.mem_cons.mp hmem with rfl | hmem2
    · exact (List.nodup_cons.mp hnd).1 hy
    · exact hfresh y (List.mem_cons_of_mem _ hy) hmem2

/-- A duplicate-free list is untouched by `Set`-based deduplication. -/
lemma jsDedup_of_nodup {l : List String} (h : l.Nodup) : jsDedup l = l :=
  jsDedup_go_of_nodup l [] h (by simp)

/-- Re-normalizing an already normalized page size is the identity. -/
lemma normalizePageSize_fixed (C : LaunchpadConstants) (hC : ValidConstants C)
    {p : ℤ} (h1 : C.minPageSize ≤ p) (h2 : p ≤ C.maxPageSize)
    (h3 : C.pageSizeStep ∣ p) :
    normalizePageSize C (some (p : ℚ)) = p := by
  obtain ⟨hstep, -, -, -, -, -, -, -⟩ := hC
  simp only [normalizePageSize, clampNumber]
  rw [sup_eq_left.mpr (by exact_mod_cast h1 : (C.minPageSize : ℚ) ≤ (p : ℚ)),
    inf_eq_left.mpr (by exact_mod_cast h2 : (p : ℚ) ≤ (C.maxPageSize : ℚ)),
    jsRound_intCast]
  by_cases hs : C.pageSizeStep ≤ 1
  · rw [if_pos hs, sup_eq_left.mpr h1, inf_eq_left.mpr h2]
  · rw [if_neg hs]
    obtain ⟨k, hk⟩ := h3
    have hstep0 : (C.pageSizeStep : ℚ) ≠ 0 := by
      exact_mod_cast ne_of_gt (lt_of_lt_of_le one_pos hstep)
    have hq : ((p : ℚ)) / (C.pageSizeStep : ℚ) = (k : ℚ) := by
      rw [hk]; push_cast; rw [mul_comm]; field_simp
    rw [hq, jsRound_intCast, mul_comm, ← hk, sup_eq_left.mpr h1, inf_eq_left.mpr h2]

/-- Re-sanitizing valid stored custom apps reproduces them. -/
lemma filterMap_sanitize_self (C : LaunchpadConstants) (apps : List LaunchpadApp)
    (h : ∀ app ∈ apps, ValidCustomApp C app) :
    ((apps.map (fun app => some app.toRaw)).filterMap
      (fun entry => sanitizeAppRecord C entry "custom")) = apps := by
  induction apps with
  | nil => rfl
  | cons app rest ih =>
    rw [List.map_cons, List.filterMap_cons]
    rw [h app (List.mem_cons_self _ _)]
    dsimp only
    congr 1
    exact ih (fun a ha => h a (List.mem_cons_of_mem _ ha))

/-- Re-sanitizing valid stored hidden ids reproduces them. -/
lemma hiddenIds_sanitize_self (u : List String)
    (htrim : ∀ id ∈ u, jsTrim id = id ∧ id ≠ "") (hnd : u.Nodup) :
    jsDedup (((u.map some).map
        (fun id => match id with | some str => jsTrim str | none => ""))
      |>.filter (fun id => !id.isEmpty)) = u := by
  rw [List.map_map]
  have hmap : u.map ((fun id => match id with
      | some str => jsTrim str
      | none => "") ∘ some) = u :=
    calc u.map ((fun id => match id with
          | some str => jsTrim str
          | none => "") ∘ some)
        = u.map id := List.map_congr_left (fun a ha => (htrim a ha).1)
      _ = u := List.map_id u
  rw [hmap]
  have hfil : u.filter (fun id => !id.isEmpty) = u := by
    apply List.filter_eq_self.mpr
    intro a ha
    cases hae : a.isEmpty
    · rfl
    · exact absurd ((String.isEmpty_iff a).mp hae) ((htrim a ha).2)
  rw [hfil]
  exact jsDedup_of_nodup hnd

/-- A valid settings object survives the import-side re-validation
(defaults spread under the full incoming object, then reconciled). -/
lemma settingsRoundtrip (C : LaunchpadConstants)
    (st : LaunchpadSettings) (hst : ValidSettings st) :
    updateSettingsFromForm C C.defaultSettings
      (spreadSettings C.defaultSettings (settingsToPartial st)) = st := by
  obtain ⟨hcol1, hcol2, ho1, ho2, hb1, hb2, hg1, hg2, hbg⟩ := hst
  have hsp : spreadSettings C.defaultSettings (settingsToPartial st)
      = settingsToPartial st := rfl
  rw [hsp]
  obtain ⟨bt, bc, bi, oo, bs, gc, go, hd, ml, hcs⟩ := st
  simp only at hcol1 hcol2 ho1 ho2 hb1 hb2 hg1 hg2 hbg
  unfold updateSettingsFromForm settingsToPartial
  simp only [LaunchpadSettings.mk.injEq]
  refine ⟨?_, ?_, ?_, ?_, ?_, ?_, ?_, rfl, ?_, rfl⟩
  · rcases bt with - | - <;> rfl
  · exact resolveHexColor_self _ hcol1
  · exact hbg
  · show clampNumber (some oo) 0 (3/5) C.defaultSettings.overlayOpacity = oo
    simp only [clampNumber]
    rw [sup_eq_left.mpr ho1, inf_eq_left.mpr ho2]
  · show clampNumber (some bs) 0 20 C.defaultSettings.blurStrength = bs
    simp only [clampNumber]
    rw [sup_eq_left.mpr hb1, inf_eq_left.mpr hb2]
  · exact resolveHexColor_self _ hcol2
  · show clampNumber (some go) (1/20) (19/20) C.defaultSettings.glassTintOpacity = go
    simp only [clampNumber]
    rw [sup_eq_left.mpr hg1, inf_eq_left.mpr hg2]
  · rcases ml with - | - <;> rfl

/-- C8: exporting the current state and immediately importing the
resulting snapshot succeeds and leaves settings and user data unchanged,
for every valid state. -/
theorem backup_roundtrip (C : LaunchpadConstants) (hC : ValidConstants C)
    (s : LaunchpadState) (hs : ValidState C s) :
    importBackup C s (exportPayload s)
      = (⟨true, "Imported settings and app data successfully."⟩, s) := by
  obtain ⟨hset, htrim, hnd, happs, hp1, hp2, hp3⟩ :
      ValidSettings s.settings ∧
      (∀ id ∈ s.userData.hiddenAppIds, jsTrim id = id ∧ id ≠ "") ∧
      s.userData.hiddenAppIds.Nodup ∧
      (∀ app ∈ s.userData.customApps, ValidCustomApp C app) ∧
      C.minPageSize ≤ s.userData.pageSize ∧ s.userData.pageSize ≤ C.maxPageSize ∧
      C.pageSizeStep ∣ s.userData.pageSize :=
    ⟨hs.1, hs.2.1, hs.2.2.1, hs.2.2.2.1, hs.2.2.2.2.1, hs.2.2.2.2.2.1, hs.2.2.2.2.2.2⟩
  have hsettings := settingsRoundtrip C s.settings hset
  have hcustom := filterMap_sanitize_self C s.userData.customApps happs
  have hhidden := hiddenIds_sanitize_self s.userData.hiddenAppIds htrim hnd
  have hpage := normalizePageSize_fixed C hC hp1 hp2 hp3
  have hhcs : (settingsToPartial s.settings).hasCompletedSetup
      = some s.settings.hasCompletedSetup := rfl
  have hcap : (userDataToRaw s.userData).customApps
      = some (s.userData.customApps.map (fun app => some app.toRaw)) := rfl
  have hhidf : (userDataToRaw s.userData).hiddenAppIds
      = some (s.userData.hiddenAppIds.map some) := rfl
  have hpsf : (userDataToRaw s.userData).pageSize
      = some (some (s.userData.pageSize : ℚ)) := rfl
  simp only [importBackup, exportPayload, BackupField.truthy, Bool.not_true,
    Bool.and_self, Bool.false_eq_true, if_false, hhcs, hcap, hhidf, hpsf,
    Option.map_some, Option.map_some', mergeUserData, Option.getD_some,
    Bool.and_true, if_true]
  rw [hsettings, hcustom, hhidden, hpage]

/-- A concrete valid state for instantiating the round trip. -/
def demoState : LaunchpadState :=
  { settings := demoConsts.defaultSettings
    userData :=
      { hiddenAppIds := ["app-x"]
        customApps := [⟨"custom-my-app", "My App", "", "https://example.com/x",
          "./icons/default-icon.svg", [], some "custom"⟩]
        pageSize := 20 }
    baseCatalog := [] }

/-- The concrete state satisfies the state invariants. -/
lemma demoState_valid : ValidState demoConsts demoState := by
  refine ⟨⟨by decide, by decide, by norm_num [demoConsts, demoState],
    by norm_num [demoConsts, demoState], by norm_num [demoConsts, demoState],
    by norm_num [demoConsts, demoState], by norm_num [demoConsts, demoState],
    by norm_num [demoConsts, demoState], by decide⟩, by decide⟩

/-- Concrete instantiation of `backup_roundtrip`. -/
theorem backup_roundtrip_witness :
    ValidState demoConsts demoState ∧
    importBackup demoConsts demoState (exportPayload demoState)
      = (⟨true, "Imported settings and app data successfully."⟩, demoState) :=
  ⟨demoState_valid, backup_roundtrip demoConsts demoConsts_valid demoState demoState_valid⟩
